import Mathlib

/-!
Verification development for the `staples-plugin` repository.

The repository consists of two Python programs:

  * `download_staples.py` — authenticates against staples.com, pages through
    the in-store order-history list endpoint, enriches POS orders with a
    secondary detail fetch, caches each order in `.staples_cache/<n>.json`,
    and writes all accumulated orders to `staples_orders_extract.json`;
  * `convert_orders.py` — converts the downloaded order JSON into tabular
    rows (one row per order line item) for TSV/XLSX output.

This file gives a shallow embedding of both programs.  JSON values are
modelled by the inductive type `J` (numbers are modelled as integers — the
claims under verification never do float arithmetic, only pass values
through or default them to `0`).  Python dictionary/item access, truthiness,
iteration, `str()` conversion and the exception classes relevant to the
source (`KeyError`, `TypeError`, `AttributeError`, `IndexError`) are
modelled explicitly, because the source's control flow depends on which
exception class is raised where (`except KeyError` in the enrichment step,
the broad `except Exception` around the page loop, and the uncaught
exceptions of the converter).

Network traffic is modelled by an environment `Env` mapping each request to
the (already JSON-parsed) response, with `none` standing for a non-200
response, exactly as `fetch_order_page` / `fetch_pos_details` collapse
non-200 responses to `None`.  The state `St` additionally records the
requests issued, so that claims about which requests a run performs can be
stated.
-/

/-- Python exception classes that the embedded code can raise. -/
inductive PyErr where
  | keyError
  | typeError
  | attributeError
  | indexError
deriving DecidableEq, Repr

/-- JSON values as produced by Python's `json.load` / `response.json()`.
Numbers are modelled as integers; object fields keep their textual order
(Python dicts preserve insertion order). -/
inductive J where
  | null : J
  | bool : Bool → J
  | num : Int → J
  | str : String → J
  | arr : List J → J
  | obj : List (String × J) → J
deriving Repr

mutual
/-- Python structural equality `==` on JSON values. -/
def jEq : J → J → Bool
  | .null, .null => true
  | .bool a, .bool b => a == b
  | .num a, .num b => a == b
  | .str a, .str b => a == b
  | .arr a, .arr b => jEqList a b
  | .obj a, .obj b => jEqKvs a b
  | _, _ => false

/-- Elementwise `==` on JSON lists. -/
def jEqList : List J → List J → Bool
  | [], [] => true
  | x :: xs, y :: ys => jEq x y && jEqList xs ys
  | _, _ => false

/-- Entrywise `==` on JSON dicts (order-sensitive, as in the model). -/
def jEqKvs : List (String × J) → List (String × J) → Bool
  | [], [] => true
  | (k, v) :: xs, (k', v') :: ys => k == k' && jEq v v' && jEqKvs xs ys
  | _, _ => false
end

/-- Python truthiness (`bool(x)`) on JSON values: `None`, `False`, `0`,
`""`, `[]` and `{}` are falsy. -/
def truthy : J → Bool
  | .null => false
  | .bool b => b
  | .num n => n != 0
  | .str s => s != ""
  | .arr l => !l.isEmpty
  | .obj kvs => !kvs.isEmpty

/-- First binding of a key in an association list (Python dict lookup;
JSON-parsed dicts have unique keys). -/
def lookupKV : List (String × J) → String → Option J
  | [], _ => none
  | (k', v) :: rest, k => if k' = k then some v else lookupKV rest k

/-- Python dict assignment `d[k] = v`: update the existing binding in
place, or append a new one (dicts preserve insertion order). -/
def setKV : List (String × J) → String → J → List (String × J)
  | [], k, v => [(k, v)]
  | (k', v') :: rest, k, v =>
      if k' = k then (k, v) :: rest else (k', v') :: setKV rest k v

/-- Python `d.get(k, default)`.  Calling `.get` on a non-dict raises
`AttributeError`. -/
def pyDictGet (d : J) (k : String) (default : J) : Except PyErr J :=
  match d with
  | .obj kvs => .ok ((lookupKV kvs k).getD default)
  | _ => .error .attributeError

/-- Python subscription `d[k]` with a string key: `KeyError` when a dict
lacks the key, `TypeError` on any non-dict (lists/strings need integer
indices; `None`, numbers and booleans are not subscriptable). -/
def pyGetItem (d : J) (k : String) : Except PyErr J :=
  match d with
  | .obj kvs =>
      match lookupKV kvs k with
      | some v => .ok v
      | none => .error .keyError
  | _ => .error .typeError

/-- Python subscription `x[i]` with a non-negative integer index. An
integer index into a dict whose keys are strings raises `KeyError`. -/
def pyIndex (x : J) (i : Nat) : Except PyErr J :=
  match x with
  | .arr l =>
      match l.get? i with
      | some v => .ok v
      | none => .error .indexError
  | .str s =>
      match s.toList.get? i with
      | some c => .ok (.str (String.singleton c))
      | none => .error .indexError
  | .obj _ => .error .keyError
  | _ => .error .typeError

/-- Python iteration `for x in j`: lists yield elements, dicts yield keys,
strings yield one-character strings, everything else raises `TypeError`. -/
def pyIter : J → Except PyErr (List J)
  | .arr l => .ok l
  | .obj kvs => .ok (kvs.map (fun kv => J.str kv.1))
  | .str s => .ok (s.toList.map (fun c => J.str (String.singleton c)))
  | _ => .error .typeError

/-- Substring test used by Python's `sub in s` on strings. -/
def strContains (s sub : String) : Bool :=
  if sub = "" then true else (s.splitOn sub).length > 1

/-- Python membership `x in c`: key test for dicts (all modelled keys are
strings, so only a string operand can match), element test for lists,
substring test for strings; other containers raise `TypeError`. -/
def pyIn (x : J) (c : J) : Except PyErr Bool :=
  match c with
  | .obj kvs =>
      match x with
      | .str s => .ok (kvs.any (fun kv => kv.1 == s))
      | _ => .ok false
  | .arr l => .ok (l.any (fun v => jEq v x))
  | .str s =>
      match x with
      | .str sub => .ok (strContains s sub)
      | _ => .error .typeError
  | _ => .error .typeError

mutual
/-- Python `repr()` of a JSON value (string values are quoted). -/
def pyRepr : J → String
  | .null => "None"
  | .bool b => if b then "True" else "False"
  | .num n => toString n
  | .str s => String.singleton (Char.ofNat 39) ++ s ++ String.singleton (Char.ofNat 39)
  | .arr l => "[" ++ pyReprList l ++ "]"
  | .obj kvs => "\x7b" ++ pyReprKvs kvs ++ "\x7d"

/-- `repr` of list elements, comma-separated. -/
def pyReprList : List J → String
  | [] => ""
  | [x] => pyRepr x
  | x :: rest => pyRepr x ++ ", " ++ pyReprList rest

/-- `repr` of dict entries, comma-separated. -/
def pyReprKvs : List (String × J) → String
  | [] => ""
  | [(k, v)] =>
      String.singleton (Char.ofNat 39) ++ k ++ String.singleton (Char.ofNat 39)
        ++ ": " ++ pyRepr v
  | (k, v) :: rest =>
      String.singleton (Char.ofNat 39) ++ k ++ String.singleton (Char.ofNat 39)
        ++ ": " ++ pyRepr v ++ ", " ++ pyReprKvs rest
end

/-- Python `str()` / f-string interpolation of a JSON value: identity on
strings, `repr` otherwise. -/
def pyStr : J → String
  | .str s => s
  | v => pyRepr v

/-- Python `s.startswith(p)` — raises `AttributeError` on non-strings. -/
def pyStartsWith (v : J) (p : String) : Except PyErr Bool :=
  match v with
  | .str s => .ok (s.startsWith p)
  | _ => .error .attributeError

/-- Python dict assignment `d[k] = v` lifted to `J`; the source only ever
assigns into values it has just copied from a parsed JSON dict, so the
non-dict branch is unreachable there. -/
def pySetItem (d : J) (k : String) (v : J) : J :=
  match d with
  | .obj kvs => .obj (setKV kvs k v)
  | other => other

/-! ## Embedding of `download_staples.py` -/

/-- Configuration constant `CACHE_DIR` of `download_staples.py`. -/
def CACHE_DIR : String := ".staples_cache"

/-- Configuration constant `OUTPUT_FILE` of `download_staples.py`; note it
contains no timestamp or per-run component. -/
def OUTPUT_FILE : String := "staples_orders_extract.json"

/-- URL posted to by `fetch_order_page`. -/
def searchOrderUrl : String :=
  "https://www.staples.com/sdc/ptd/api/mmxPTD/mmxSearchOrder"

/-- `referer` header sent by `fetch_order_page` (the in-store order page). -/
def instoreReferer : String := "https://www.staples.com/ptd/myorders/instore"

/-- The `criteria` object of the list-request payload. -/
structure SearchCriteria where
  sortBy : String
  pageNumber : Nat
  pageSize : Nat
deriving DecidableEq, Repr

/-- The full request body built by `fetch_order_page`. -/
structure SearchOrderRequest where
  criteria : SearchCriteria
  isRetailUS : Bool
  approvalOrdersOnly : Bool
  includeDeclinedOrders : Bool
  standAloneMode : Bool
  testOrdersOnly : Bool
  origin : String
  viewAllOrders : Bool
  isOrderManagementDisabled : Bool
  is3PP : Bool
deriving DecidableEq, Repr

/-- The payload `fetch_order_page` builds for a given page number
(`download_staples.py` lines 75–92). -/
def fetchOrderPagePayload (pageNumber : Nat) : SearchOrderRequest :=
  { criteria := { sortBy := "", pageNumber := pageNumber, pageSize := 25 }
    isRetailUS := true
    approvalOrdersOnly := false
    includeDeclinedOrders := false
    standAloneMode := false
    testOrdersOnly := false
    origin := ""
    viewAllOrders := false
    isOrderManagementDisabled := false
    is3PP := false }

/-- One list-page request as issued by `fetch_order_page`: its URL, its
`referer` header and its JSON payload. -/
structure ListRequest where
  url : String
  referer : String
  payload : SearchOrderRequest
deriving DecidableEq, Repr

/-- The list request `fetch_order_page` issues for the given page. -/
def mkListRequest (pageNumber : Nat) : ListRequest :=
  { url := searchOrderUrl
    referer := instoreReferer
    payload := fetchOrderPagePayload pageNumber }

/-- The detail URL built by `fetch_pos_details` for a given `tp_sid` key. -/
def posDetailUrl (tpSid : String) : String :=
  "https://www.staples.com/sdc/ptd/api/orderDetails/ptd/orderdetails?enterpriseCode=RetailUS&orderType=in-store_instore&tp_sid="
    ++ tpSid ++ "&pgIntlO=Y"

/-- The upstream server, abstracted: the parsed JSON response to each
request, with `none` standing for a non-200 status (both fetch helpers in
the source collapse a non-200 response to `None`). -/
structure Env where
  listPage : Nat → Option J
  posDetail : String → Option J

/-- Run state of `main` in `download_staples.py`: the cache directory
contents (file name to file content, most recent write first), the
accumulated `all_orders` list, and — instrumentation of the embedding —
the list/detail requests issued so far.  Detail requests are logged
together with the cache file name of the order that triggered them. -/
structure St where
  cache : List (String × J)
  allOrders : List J
  listReq : List ListRequest
  detailReq : List (String × String)
deriving Repr

/-- The cache file name `f"..orderNumber..json"` used for an order
(`download_staples.py` lines 154–155); `order.get` on a non-dict raises
`AttributeError`. -/
def cacheFileName (order : J) : Except PyErr String :=
  match order with
  | .obj kvs => .ok (pyStr ((lookupKV kvs "orderNumber").getD (J.str "")) ++ ".json")
  | _ => .error .attributeError

/-- `detail_data['ptdOrderDetails']['orderDetails']['orderDetails']`
(`download_staples.py` line 177). -/
def extractInnerDetails (detailData : J) : Except PyErr J := do
  let a ← pyGetItem detailData "ptdOrderDetails"
  let b ← pyGetItem a "orderDetails"
  pyGetItem b "orderDetails"

/-- Lines 174–181 of `download_staples.py`: given the (possibly `None`
collapsed-away by the caller) detail payload, attach the inner details to
the order, falling back to the raw payload only on `KeyError`; any other
exception (notably `TypeError` from subscripting a non-dict) propagates. -/
def attachPosDetail (order : J) (detailData : J) : Except PyErr J :=
  if truthy detailData then
    match extractInnerDetails detailData with
    | .ok inner => .ok (pySetItem order "_pos_detail" inner)
    | .error .keyError => .ok (pySetItem order "_pos_detail" detailData)
    | .error e => .error e
  else
    .ok order

/-- Lines 183–187 of `download_staples.py`: write the enriched order to
its cache file and append it to `all_orders`. -/
def finishOrder (st : St) (fname : String) (enriched : J) : St × Option PyErr :=
  ({ st with
      cache := (fname, enriched) :: st.cache
      allOrders := st.allOrders ++ [enriched] }, none)

/-- The body of `for order in orders` (`download_staples.py` lines
153–187).  Returns the updated state and, when the body raised, the
exception (state changes made before the raise — here only the detail
request — are kept, matching Python). -/
def processOrder (env : Env) (st : St) (order : J) : St × Option PyErr :=
  match order with
  | .obj kvs =>
    let numVal := (lookupKV kvs "orderNumber").getD (J.str "")
    let fname := pyStr numVal ++ ".json"
    match lookupKV st.cache fname with
    | some cached =>
        ({ st with allOrders := st.allOrders ++ [cached] }, none)
    | none =>
        match pyStartsWith numVal "POS." with
        | .error e => (st, some e)
        | .ok true =>
          let keyV := (lookupKV kvs "keyForOrderDetails").getD J.null
          if truthy keyV then
            let sid := pyStr keyV
            let st1 :=
              { st with detailReq := st.detailReq ++ [(fname, posDetailUrl sid)] }
            match env.posDetail sid with
            | some detailData =>
              match attachPosDetail order detailData with
              | .ok enriched => finishOrder st1 fname enriched
              | .error e => (st1, some e)
            | none => finishOrder st1 fname order
          else finishOrder st fname order
        | .ok false => finishOrder st fname order
  | _ => (st, some .attributeError)

/-- The whole `for order in orders` loop: stops at the first exception,
keeping the partial state. -/
def processOrders (env : Env) (st : St) : List J → St × Option PyErr
  | [] => (st, none)
  | o :: rest =>
    match processOrder env st o with
    | (st', none) => processOrders env st' rest
    | (st', some e) => (st', some e)

/-- Lines 149–191 of `download_staples.py`: the `while` body after the
(possible) refetch, on the current `list_data` (noting that
`fetch_order_page` returned `None` on a non-200 response, on which the
subsequent `.get` raises `AttributeError`, caught by the `except` →
`break`).  The result\'s second component is `none` when the loop breaks
(explicit `break` on an empty order list, or any exception caught by the
`except`), and `some ld` with the current `list_data` when the loop
continues. -/
def pageBodyRest (env : Env) (st : St) (ld : Option J) : St × Option (Option J) :=
  match ld with
  | none => (st, none)
  | some d =>
    match pyDictGet d "orderDetailsList" (J.arr []) with
    | .error _ => (st, none)
    | .ok orders =>
      if truthy orders then
        match pyIter orders with
        | .error _ => (st, none)
        | .ok lst =>
          match processOrders env st lst with
          | (st', none) => (st', some (some d))
          | (st', some _) => (st', none)
      else (st, none)

/-- One iteration of the `while current_page <= total_pages` body
(`download_staples.py` lines 145–191), including the conditional refetch
of `list_data` for pages after the first (`fetch_order_page`, logged in
`listReq`). -/
def pageBody (env : Env) (current : Nat) (ld : Option J) (st : St) :
    St × Option (Option J) :=
  if current > 1 then
    pageBodyRest env { st with listReq := st.listReq ++ [mkListRequest current] }
      (env.listPage current)
  else pageBodyRest env st ld

/-- The page loop itself; `fuel` is the number of iterations the
`while current_page <= total_pages` condition still allows, i.e.
`total_pages - current_page + 1`. -/
def pageLoop (env : Env) : Nat → Nat → Option J → St → St
  | 0, _, _, st => st
  | fuel + 1, current, ld, st =>
    match pageBody env current ld st with
    | (st', none) => st'
    | (st', some ld') => pageLoop env fuel (current + 1) ld' st'

/-- Outcome of `main`: `critical` is the early `return` on a failed or
malformed first page (no output file is written), `crashed` is an uncaught
exception before the page loop (also: no output file), and `finished`
carries the path and content of the output artifact written at the end. -/
inductive RunResult where
  | critical (st : St)
  | crashed (e : PyErr) (st : St)
  | finished (outputPath : String) (output : List J) (st : St)
deriving Repr

/-- The state reached by a run, regardless of outcome. -/
def finalSt : RunResult → St
  | .critical st => st
  | .crashed _ st => st
  | .finished _ _ st => st

/-- The output-artifact path a run wrote, if it wrote one. -/
def outputPathOf : RunResult → Option String
  | .finished p _ _ => some p
  | _ => none

/-- The output-artifact content a run wrote, if it wrote one. -/
def outputOf : RunResult → Option (List J)
  | .finished _ o _ => some o
  | _ => none

/-- `main` of `download_staples.py` after the first `fetch_order_page`
(lines 133–204): the early `return` on a failed or malformed first page,
the pagination arithmetic, the page loop, and the final artifact write. -/
def runMainRest (env : Env) (st1 : St) : Option J → RunResult
  | none => .critical st1
  | some d =>
    if truthy d then
      match pyIn (J.str "orderDetailsList") d with
      | .error e => .crashed e st1
      | .ok found =>
        if found then
          match pyDictGet d "totalResults" (J.num 0) with
          | .error e => .crashed e st1
          | .ok trV =>
            match trV with
            | .num r =>
                let totalPages : Int := (r + 24).fdiv 25
                let stF := pageLoop env totalPages.toNat 1 (some d) st1
                .finished OUTPUT_FILE stF.allOrders stF
            | .bool b =>
                let r : Int := if b then 1 else 0
                let totalPages : Int := (r + 24).fdiv 25
                let stF := pageLoop env totalPages.toNat 1 (some d) st1
                .finished OUTPUT_FILE stF.allOrders stF
            | _ => .crashed .typeError st1
        else .critical st1
    else .critical st1

/-- `main` of `download_staples.py` (lines 117–204), starting from a given
cache-directory content.  The authentication steps (lines 121–127) only
produce the session consumed by `Env`; they are not modelled further.  The
first list fetch (line 131) is logged in `listReq`. -/
def runMain (env : Env) (cache0 : List (String × J)) : RunResult :=
  runMainRest env
    { cache := cache0, allOrders := [], listReq := [mkListRequest 1], detailReq := [] }
    (env.listPage 1)

/-! ## Embedding of `convert_orders.py` -/

/-- One output row: the dict built per order line in `parse_order_lines`,
as a key–value list in insertion order. -/
def Row : Type := List (String × J)

/-- Row lookup (by column title). -/
def rowGet (row : Row) (k : String) : Option J := lookupKV row k

/-- The order-level values read at the top of `parse_order_lines`
(`convert_orders.py` lines 31–46), with their `.get` defaults. -/
structure OrderCtx where
  order_number : J
  order_date : J
  order_type : J
  order_channel : J
  customer_number : J
  status_desc : J
  grand_total : J
  points_issued : J
  points_redeemed : J
  store_number : J
  store_address : J
  store_city : J
  store_state : J
deriving Repr

/-- Reads the order-level fields (the order is known to be a dict at the
call sites below). -/
def orderCtx (kvs : List (String × J)) : OrderCtx :=
  let order_type := (lookupKV kvs "orderType").getD (J.str "")
  { order_number := (lookupKV kvs "orderNumber").getD (J.str "")
    order_date := (lookupKV kvs "orderDate").getD (J.str "")
    order_type := order_type
    order_channel := (lookupKV kvs "orderChannel").getD order_type
    customer_number := (lookupKV kvs "customerNumber").getD (J.str "")
    status_desc := (lookupKV kvs "statusDesc").getD (J.str "")
    grand_total := (lookupKV kvs "grandTotal").getD (J.num 0)
    points_issued := (lookupKV kvs "pointsIssued").getD (J.num 0)
    points_redeemed := (lookupKV kvs "pointsRedeemed").getD (J.num 0)
    store_number := (lookupKV kvs "storeNumber").getD (J.str "")
    store_address := (lookupKV kvs "storeAddressLine1").getD (J.str "")
    store_city := (lookupKV kvs "storeCity").getD (J.str "")
    store_state := (lookupKV kvs "storeState").getD (J.str "") }

/-- The `Line Status` expression of `convert_orders.py` line 72:
`line.get('statuses', [..])[0].get('statusDesc', '') if line.get('statuses') else ''`. -/
def lineStatusOf (lkvs : List (String × J)) : Except PyErr J :=
  let statusesV := (lookupKV lkvs "statuses").getD J.null
  if truthy statusesV then do
    let sv := (lookupKV lkvs "statuses").getD (J.arr [J.obj []])
    let first ← pyIndex sv 0
    pyDictGet first "statusDesc" (J.str "")
  else
    .ok (J.str "")

/-- The row built for one order line (`convert_orders.py` lines 50–78);
`line.get` on a non-dict line raises `AttributeError`. -/
def lineRow (ctx : OrderCtx) (line : J) : Except PyErr Row :=
  match line with
  | .obj lkvs => do
    let lineStatus ← lineStatusOf lkvs
    .ok [("Order Number", ctx.order_number),
         ("Order Date", ctx.order_date),
         ("Order Type", ctx.order_type),
         ("Order Channel", ctx.order_channel),
         ("Customer Number", ctx.customer_number),
         ("Order Status", ctx.status_desc),
         ("Grand Total", ctx.grand_total),
         ("Points Issued", ctx.points_issued),
         ("Points Redeemed", ctx.points_redeemed),
         ("Store Number", ctx.store_number),
         ("Store Address", ctx.store_address),
         ("Store City", ctx.store_city),
         ("Store State", ctx.store_state),
         ("Product SKU", (lookupKV lkvs "productSku").getD (J.str "")),
         ("Product Name", (lookupKV lkvs "productName").getD (J.str "")),
         ("Product Description", (lookupKV lkvs "productDesc").getD (J.str "")),
         ("Model", (lookupKV lkvs "model").getD (J.str "")),
         ("Unit Price", (lookupKV lkvs "unitPrice").getD (J.num 0)),
         ("Quantity", (lookupKV lkvs "orderQty").getD (J.num 0)),
         ("Original Quantity", (lookupKV lkvs "originalOrderedQty").getD (J.num 0)),
         ("Line Total", (lookupKV lkvs "total").getD (J.num 0)),
         ("Line Status", lineStatus),
         ("Product URL", (lookupKV lkvs "productURL").getD (J.str "")),
         ("Out of Stock", (lookupKV lkvs "isOutOfStock").getD (J.bool false)),
         ("BOPIS Eligible", (lookupKV lkvs "bopisEligible").getD (J.bool false)),
         ("Delivery In Stock", (lookupKV lkvs "isDeliveryInstock").getD (J.bool false))]
  | _ => .error .attributeError

/-- The single fallback row built when an order has no lines
(`convert_orders.py` lines 81–109). -/
def fallbackRow (ctx : OrderCtx) : Row :=
  [("Order Number", ctx.order_number),
   ("Order Date", ctx.order_date),
   ("Order Type", ctx.order_type),
   ("Order Channel", ctx.order_channel),
   ("Customer Number", ctx.customer_number),
   ("Order Status", ctx.status_desc),
   ("Grand Total", ctx.grand_total),
   ("Points Issued", ctx.points_issued),
   ("Points Redeemed", ctx.points_redeemed),
   ("Store Number", ctx.store_number),
   ("Store Address", ctx.store_address),
   ("Store City", ctx.store_city),
   ("Store State", ctx.store_state),
   ("Product SKU", J.str ""),
   ("Product Name", J.str ""),
   ("Product Description", J.str ""),
   ("Model", J.str ""),
   ("Unit Price", J.num 0),
   ("Quantity", J.num 0),
   ("Original Quantity", J.num 0),
   ("Line Total", J.num 0),
   ("Line Status", J.str ""),
   ("Product URL", J.str ""),
   ("Out of Stock", J.bool false),
   ("BOPIS Eligible", J.bool false),
   ("Delivery In Stock", J.bool false)]

/-- Left-to-right effectful map: models a Python `for` loop that appends
one result per element and propagates the first exception. -/
def mapExcept (f : α → Except PyErr β) : List α → Except PyErr (List β)
  | [] => .ok []
  | x :: rest => do
    let y ← f x
    let ys ← mapExcept f rest
    .ok (y :: ys)

/-- `parse_order_lines` of `convert_orders.py` (lines 27–111).  The first
statement already calls `order.get`, so a non-dict order raises
`AttributeError`. -/
def parse_order_lines (order : J) : Except PyErr (List Row) :=
  match order with
  | .obj kvs => do
    let ctx := orderCtx kvs
    let linesV := (lookupKV kvs "orderLines").getD (J.arr [])
    let lines ← pyIter linesV
    let rows ← mapExcept (lineRow ctx) lines
    if rows.isEmpty then .ok [fallbackRow ctx] else .ok rows
  | _ => .error .attributeError

/-- `data.get('orderDetailsList', []) or data.get('orders', [])`
(`convert_orders.py` line 366). -/
def extractOrders (data : J) : Except PyErr J := do
  let a ← pyDictGet data "orderDetailsList" (J.arr [])
  if truthy a then .ok a else pyDictGet data "orders" (J.arr [])

/-- The rows one input file contributes to `all_rows`
(`convert_orders.py` lines 366–373): extract the order list, skip the
file when it is falsy, otherwise one batch of rows per order. -/
def fileRows (data : J) : Except PyErr (List Row) := do
  let orders ← extractOrders data
  if truthy orders then do
    let lst ← pyIter orders
    let rowss ← mapExcept parse_order_lines lst
    .ok rowss.flatten
  else .ok []

/-! ## Concrete runs used by witnesses and counterexamples -/

/-- A minimal non-POS order. -/
def ordA : J := .obj [("orderNumber", .str "A")]

/-- A second minimal non-POS order. -/
def ordB : J := .obj [("orderNumber", .str "B")]

/-- A POS order carrying a detail-lookup key. -/
def posOrd : J := .obj [("orderNumber", .str "POS.1"), ("keyForOrderDetails", .str "K")]

/-- Server with one single-order page and failing detail endpoint. -/
def envOne : Env :=
  { listPage := fun p =>
      if p = 1 then
        some (.obj [("totalResults", .num 1), ("orderDetailsList", .arr [ordA])])
      else none
    posDetail := fun _ => none }

/-- Server with one two-order page. -/
def envTwo : Env :=
  { listPage := fun p =>
      if p = 1 then
        some (.obj [("totalResults", .num 2), ("orderDetailsList", .arr [ordA, ordB])])
      else none
    posDetail := fun _ => none }

/-- Server returning the POS order and a detail payload that is a JSON
list (structurally mismatched at the first nesting level, but not by a
missing dict key). -/
def envC3 : Env :=
  { listPage := fun p =>
      if p = 1 then
        some (.obj [("totalResults", .num 1), ("orderDetailsList", .arr [posOrd])])
      else none
    posDetail := fun _ => some (.arr [.str "x"]) }

/-- A truthy detail payload that is a dict lacking the expected key. -/
def keyErrDetail : J := .obj [("a", .num 1)]

/-! ## C3 — detail-payload fallback -/

/-- C3, counterexample.  The claim says any structural mismatch in the
detail payload makes the enricher attach the raw payload with no exception
reaching the caller.  With a status-200 detail payload that is a JSON
list, `detail_data['ptdOrderDetails']` raises `TypeError`, which
`except KeyError` does not catch: the enrichment errors out, and in a full
run the record is dropped from the output (the page loop's broad `except`
breaks), with no `_pos_detail` attached anywhere. -/
theorem c3_fallback_counterexample :
    attachPosDetail posOrd (J.arr [J.str "x"]) = .error .typeError ∧
    runMain envC3 [] =
      .finished OUTPUT_FILE []
        { cache := [], allOrders := [], listReq := [mkListRequest 1],
          detailReq := [("POS.1.json", posDetailUrl "K")] } := by
  exact ⟨rfl, by with_unfolding_all rfl⟩

/-- C3, amended.  Only a structural mismatch that manifests as a missing
key in a dict (`KeyError`) makes the enricher attach the entire raw detail
payload unmodified with no exception; a mismatch where a traversed value
is not a dict raises `TypeError`, which propagates out of the enrichment
step. -/
theorem c3_fallback_keyerror_only (order d d' : J)
    (h1 : truthy d = true)
    (h2 : extractInnerDetails d = .error .keyError)
    (h1' : truthy d' = true)
    (h2' : extractInnerDetails d' = .error .typeError) :
    attachPosDetail order d = .ok (pySetItem order "_pos_detail" d) ∧
    attachPosDetail order d' = .error .typeError := by
  constructor
  · unfold attachPosDetail
    rw [h1, h2]
    rfl
  · unfold attachPosDetail
    rw [h1', h2']
    rfl

/-- Witness for `c3_fallback_keyerror_only` at concrete payloads. -/
theorem c3_fallback_keyerror_only_witness :
    truthy keyErrDetail = true ∧
    extractInnerDetails keyErrDetail = .error .keyError ∧
    truthy (J.arr [J.str "x"]) = true ∧
    extractInnerDetails (J.arr [J.str "x"]) = .error .typeError ∧
    attachPosDetail posOrd keyErrDetail
      = .ok (pySetItem posOrd "_pos_detail" keyErrDetail) ∧
    attachPosDetail posOrd (J.arr [J.str "x"]) = .error .typeError := by
  refine ⟨rfl, rfl, rfl, rfl, ?_, ?_⟩
  · exact (c3_fallback_keyerror_only posOrd keyErrDetail (J.arr [J.str "x"]) rfl rfl rfl rfl).1
  · exact (c3_fallback_keyerror_only posOrd keyErrDetail (J.arr [J.str "x"]) rfl rfl rfl rfl).2

/-! ## C4 — output-artifact filename -/

/-- C4, counterexample.  The claim says the downloader's output filename
embeds a per-run timestamp so a second run never overwrites the first
run's artifact.  Two concrete runs that are visibly distinct (their
artifacts hold 1 and 2 records respectively) both write to the very same
path `staples_orders_extract.json`. -/
theorem c4_output_filename_counterexample :
    outputPathOf (runMain envOne []) = some "staples_orders_extract.json" ∧
    outputPathOf (runMain envTwo []) = some "staples_orders_extract.json" ∧
    (outputOf (runMain envOne [])).map List.length = some 1 ∧
    (outputOf (runMain envTwo [])).map List.length = some 2 :=
  ⟨rfl, rfl, rfl, rfl⟩

/-- C4, amended.  The downloader's output artifact path is the fixed name
`staples_orders_extract.json`, with no timestamp or per-run component:
every run that writes an artifact writes it to the same path, so a second
run overwrites the artifact of the first. -/
theorem c4_output_filename_fixed (env : Env) (cache0 : List (String × J))
    (p : String) (out : List J) (st : St)
    (h : runMain env cache0 = .finished p out st) :
    p = OUTPUT_FILE := by
  unfold runMain runMainRest at h
  repeat' split at h
  all_goals cases h
  all_goals rfl

/-- Witness for `c4_output_filename_fixed` at a concrete finished run. -/
theorem c4_output_filename_fixed_witness :
    runMain envOne [] =
      .finished "staples_orders_extract.json" [ordA]
        { cache := [("A.json", ordA)], allOrders := [ordA],
          listReq := [mkListRequest 1], detailReq := [] } ∧
    "staples_orders_extract.json" = OUTPUT_FILE :=
  ⟨by with_unfolding_all rfl,
   c4_output_filename_fixed envOne [] _ _ _ (by with_unfolding_all rfl)⟩

/-! ## C7 — non-fatal detail failure -/

/-- C7.  An uncached POS order whose detail fetch returns a non-200
status (`fetch_pos_details` returns `None`) is still cached and appended
to the output unchanged — no detail field is attached — and the order
loop continues with the remaining records of the page. -/
theorem c7_nonfatal_detail_failure (env : Env) (st : St)
    (kvs : List (String × J)) (s : String) (k : J) (rest : List J)
    (hs : lookupKV kvs "orderNumber" = some (J.str s))
    (hpos : s.startsWith "POS." = true)
    (hmiss : lookupKV st.cache (s ++ ".json") = none)
    (hkey : lookupKV kvs "keyForOrderDetails" = some k)
    (htr : truthy k = true)
    (hfail : env.posDetail (pyStr k) = none) :
    processOrder env st (J.obj kvs) =
      ({ st with
          cache := (s ++ ".json", J.obj kvs) :: st.cache
          allOrders := st.allOrders ++ [J.obj kvs]
          detailReq := st.detailReq ++ [(s ++ ".json", posDetailUrl (pyStr k))] }, none) ∧
    processOrders env st (J.obj kvs :: rest) =
      processOrders env
        { st with
            cache := (s ++ ".json", J.obj kvs) :: st.cache
            allOrders := st.allOrders ++ [J.obj kvs]
            detailReq := st.detailReq ++ [(s ++ ".json", posDetailUrl (pyStr k))] }
        rest := by
  have hstep : processOrder env st (J.obj kvs) =
      ({ st with
          cache := (s ++ ".json", J.obj kvs) :: st.cache
          allOrders := st.allOrders ++ [J.obj kvs]
          detailReq := st.detailReq ++ [(s ++ ".json", posDetailUrl (pyStr k))] }, none) := by
    have hps : pyStr (J.str s) = s := rfl
    simp only [processOrder, finishOrder, hs, Option.getD, hps, hmiss, pyStartsWith, hpos,
      if_true, hkey, htr, hfail]
  exact ⟨hstep, by simp only [processOrders, hstep]⟩

/-- A server that answers no request successfully. -/
def envDF : Env := { listPage := fun _ => none, posDetail := fun _ => none }

/-- The empty starting state. -/
def stEmpty : St := { cache := [], allOrders := [], listReq := [], detailReq := [] }

/-- Witness for `c7_nonfatal_detail_failure` at a concrete POS order. -/
theorem c7_nonfatal_detail_failure_witness :
    lookupKV [("orderNumber", J.str "POS.1"), ("keyForOrderDetails", J.str "K")]
        "orderNumber" = some (J.str "POS.1") ∧
    "POS.1".startsWith "POS." = true ∧
    lookupKV stEmpty.cache ("POS.1" ++ ".json") = none ∧
    lookupKV [("orderNumber", J.str "POS.1"), ("keyForOrderDetails", J.str "K")]
        "keyForOrderDetails" = some (J.str "K") ∧
    truthy (J.str "K") = true ∧
    envDF.posDetail (pyStr (J.str "K")) = none ∧
    processOrder envDF stEmpty posOrd =
      ({ stEmpty with
          cache := [("POS.1" ++ ".json", posOrd)]
          allOrders := [posOrd]
          detailReq := [("POS.1" ++ ".json", posDetailUrl (pyStr (J.str "K")))] }, none) := by
  refine ⟨rfl, by with_unfolding_all rfl, rfl, rfl, rfl, rfl, ?_⟩
  exact (c7_nonfatal_detail_failure envDF stEmpty
    [("orderNumber", J.str "POS.1"), ("keyForOrderDetails", J.str "K")]
    "POS.1" (J.str "K") [] rfl (by with_unfolding_all rfl) rfl rfl rfl rfl).1

/-! ## C10 — records with a missing order number share the cache file `.json` -/

/-- An order record (a dict) whose `orderNumber` field is absent. -/
def missingOrderNumber (o : J) : Bool :=
  match o with
  | .obj kvs => (lookupKV kvs "orderNumber").isNone
  | _ => false

/-- Once `.json` holds a record, every further record with a missing
order number is emitted as a copy of that cached record. -/
theorem processOrders_missing_hit (env : Env) (o : J) :
    ∀ (rest : List J) (st : St),
      (∀ o' ∈ rest, missingOrderNumber o' = true) →
      lookupKV st.cache ".json" = some o →
      processOrders env st rest =
        ({ st with allOrders := st.allOrders ++ rest.map (fun _ => o) }, none) := by
  intro rest
  induction rest with
  | nil => intro st _ _; simp [processOrders]
  | cons o' rest ih =>
    intro st h hc
    have hm := h o' (by simp)
    cases o' with
    | obj kvs' =>
      simp only [missingOrderNumber, Option.isNone_iff_eq_none] at hm
      have h0 : pyStr ((lookupKV kvs' "orderNumber").getD (J.str "")) ++ ".json"
          = ".json" := by rw [hm]; rfl
      have hstep : processOrder env st (J.obj kvs') =
          ({ st with allOrders := st.allOrders ++ [o] }, none) := by
        simp only [processOrder, finishOrder, h0, hc]
      simp only [processOrders, hstep]
      rw [ih { st with allOrders := st.allOrders ++ [o] }
        (fun x hx => h x (by simp [hx])) hc]
      simp
    | null => simp [missingOrderNumber] at hm
    | bool b => simp [missingOrderNumber] at hm
    | num n => simp [missingOrderNumber] at hm
    | str s => simp [missingOrderNumber] at hm
    | arr l => simp [missingOrderNumber] at hm

/-- C10.  Every record lacking an `orderNumber` field is keyed by the
empty string, so all of them share the single cache file `.json`: when
that file does not yet exist, the first such record is cached there and
emitted as itself, and every subsequent such record is emitted as a
verbatim copy of that first record instead of its own data. -/
theorem c10_missing_order_number_collision (env : Env) (st : St)
    (o : J) (rest : List J)
    (h1 : missingOrderNumber o = true)
    (h2 : ∀ o' ∈ rest, missingOrderNumber o' = true)
    (h3 : lookupKV st.cache ".json" = none) :
    cacheFileName o = .ok ".json" ∧
    processOrders env st (o :: rest) =
      ({ st with
          cache := (".json", o) :: st.cache
          allOrders := st.allOrders ++ o :: rest.map (fun _ => o) }, none) := by
  cases o with
  | obj kvs =>
    simp only [missingOrderNumber, Option.isNone_iff_eq_none] at h1
    have h0 : pyStr ((lookupKV kvs "orderNumber").getD (J.str "")) ++ ".json"
        = ".json" := by rw [h1]; rfl
    constructor
    · simp only [cacheFileName, h0]
    · have hsw : pyStartsWith ((lookupKV kvs "orderNumber").getD (J.str "")) "POS."
          = .ok false := by rw [h1]; rfl
      have hstep : processOrder env st (J.obj kvs) =
          ({ st with
              cache := (".json", J.obj kvs) :: st.cache
              allOrders := st.allOrders ++ [J.obj kvs] }, none) := by
        simp only [processOrder, finishOrder, h0, h3, hsw]
      simp only [processOrders, hstep]
      rw [processOrders_missing_hit env (J.obj kvs) rest _ h2 (by simp [lookupKV])]
      simp
  | null => simp [missingOrderNumber] at h1
  | bool b => simp [missingOrderNumber] at h1
  | num n => simp [missingOrderNumber] at h1
  | str s => simp [missingOrderNumber] at h1
  | arr l => simp [missingOrderNumber] at h1

/-- Witness for `c10_missing_order_number_collision`: two distinct
records, both lacking `orderNumber`, the second emitted as a copy of the
first. -/
theorem c10_missing_order_number_collision_witness :
    missingOrderNumber (J.obj [("a", J.num 1)]) = true ∧
    (∀ o' ∈ [J.obj [("b", J.num 2)]], missingOrderNumber o' = true) ∧
    lookupKV stEmpty.cache ".json" = none ∧
    (cacheFileName (J.obj [("a", J.num 1)]) = .ok ".json" ∧
     processOrders envDF stEmpty [J.obj [("a", J.num 1)], J.obj [("b", J.num 2)]] =
       ({ stEmpty with
           cache := [(".json", J.obj [("a", J.num 1)])]
           allOrders := [J.obj [("a", J.num 1)], J.obj [("a", J.num 1)]] }, none)) := by
  refine ⟨rfl, by simp [missingOrderNumber, lookupKV], rfl, ?_⟩
  have := c10_missing_order_number_collision envDF stEmpty
    (J.obj [("a", J.num 1)]) [J.obj [("b", J.num 2)]]
    rfl (by simp [missingOrderNumber, lookupKV]) rfl
  simpa [stEmpty] using this


/-! ## Invariants of the downloader state -/

/-- Prepending a fresh cache file preserves every existing binding. -/
theorem lookupKV_cons_preserve {c : List (String × J)} {fname k : String} {e v : J}
    (hnone : lookupKV c fname = none) (h : lookupKV c k = some v) :
    lookupKV ((fname, e) :: c) k = some v := by
  have hne : fname ≠ k := by
    intro heq
    rw [heq, h] at hnone
    cases hnone
  simp [lookupKV, hne, h]

/-- One order-loop step never touches the list-request log, and never
drops or rewrites an existing cache file (the only cache write is the
`json.dump` for a file that was just checked not to exist). -/
theorem processOrder_invariants (env : Env) (st : St) (o : J) :
    (processOrder env st o).1.listReq = st.listReq ∧
    (∀ k v, lookupKV st.cache k = some v →
      lookupKV (processOrder env st o).1.cache k = some v) := by
  cases o with
  | obj kvs =>
    cases hcache : lookupKV st.cache
        (pyStr ((lookupKV kvs "orderNumber").getD (J.str "")) ++ ".json") with
    | some cached =>
      refine ⟨?_, fun k v h => ?_⟩
      · simp only [processOrder, hcache]
      · simp only [processOrder, hcache]
        exact h
    | none =>
      cases hsw : pyStartsWith ((lookupKV kvs "orderNumber").getD (J.str "")) "POS." with
      | error e =>
        refine ⟨?_, fun k v h => ?_⟩
        · simp only [processOrder, hcache, hsw]
        · simp only [processOrder, hcache, hsw]
          exact h
      | ok isPos =>
        cases isPos with
        | false =>
          refine ⟨?_, fun k v h => ?_⟩
          · simp only [processOrder, finishOrder, hcache, hsw]
          · simp only [processOrder, finishOrder, hcache, hsw]
            exact lookupKV_cons_preserve hcache h
        | true =>
          cases htr : truthy ((lookupKV kvs "keyForOrderDetails").getD J.null) with
          | false =>
            refine ⟨?_, fun k v h => ?_⟩
            · simp only [processOrder, finishOrder, hcache, hsw, htr,
                Bool.false_eq_true, if_false]
            · simp only [processOrder, finishOrder, hcache, hsw, htr,
                Bool.false_eq_true, if_false]
              exact lookupKV_cons_preserve hcache h
          | true =>
            cases hpd : env.posDetail
                (pyStr ((lookupKV kvs "keyForOrderDetails").getD J.null)) with
            | none =>
              refine ⟨?_, fun k v h => ?_⟩
              · simp only [processOrder, finishOrder, hcache, hsw, htr, if_true, hpd]
              · simp only [processOrder, finishOrder, hcache, hsw, htr, if_true, hpd]
                exact lookupKV_cons_preserve hcache h
            | some dd =>
              cases hat : attachPosDetail (J.obj kvs) dd with
              | ok enr =>
                refine ⟨?_, fun k v h => ?_⟩
                · simp only [processOrder, finishOrder, hcache, hsw, htr, if_true,
                    hpd, hat]
                · simp only [processOrder, finishOrder, hcache, hsw, htr, if_true,
                    hpd, hat]
                  exact lookupKV_cons_preserve hcache h
              | error e =>
                refine ⟨?_, fun k v h => ?_⟩
                · simp only [processOrder, hcache, hsw, htr, if_true, hpd, hat]
                · simp only [processOrder, hcache, hsw, htr, if_true, hpd, hat]
                  exact h
  | null => exact ⟨rfl, fun k v h => h⟩
  | bool b => exact ⟨rfl, fun k v h => h⟩
  | num n => exact ⟨rfl, fun k v h => h⟩
  | str s => exact ⟨rfl, fun k v h => h⟩
  | arr l => exact ⟨rfl, fun k v h => h⟩

/-- The order loop as a whole keeps the same invariants. -/
theorem processOrders_invariants (env : Env) :
    ∀ (l : List J) (st : St),
      (processOrders env st l).1.listReq = st.listReq ∧
      (∀ k v, lookupKV st.cache k = some v →
        lookupKV (processOrders env st l).1.cache k = some v) := by
  intro l
  induction l with
  | nil => intro st; exact ⟨rfl, fun k v h => h⟩
  | cons o rest ih =>
    intro st
    obtain ⟨hreq, hcache⟩ := processOrder_invariants env st o
    cases hpo : processOrder env st o with
    | mk st' e? =>
      rw [hpo] at hreq hcache
      cases e? with
      | none =>
        simp only [processOrders, hpo]
        obtain ⟨ihreq, ihcache⟩ := ih st'
        exact ⟨ihreq.trans hreq, fun k v h => ihcache k v (hcache k v h)⟩
      | some e =>
        simp only [processOrders, hpo]
        exact ⟨hreq, hcache⟩


/-- The post-fetch part of one page iteration logs nothing and preserves
cache bindings. -/
theorem pageBodyRest_invariants (env : Env) (st : St) (ld : Option J) :
    (pageBodyRest env st ld).1.listReq = st.listReq ∧
    (∀ k v, lookupKV st.cache k = some v →
      lookupKV (pageBodyRest env st ld).1.cache k = some v) := by
  cases ld with
  | none => exact ⟨rfl, fun k v h => h⟩
  | some d =>
    cases hdg : pyDictGet d "orderDetailsList" (J.arr []) with
    | error e =>
      refine ⟨?_, fun k v h => ?_⟩
      · simp [pageBodyRest, hdg]
      · simp [pageBodyRest, hdg]
        exact h
    | ok orders =>
      cases htr : truthy orders with
      | false =>
        refine ⟨?_, fun k v h => ?_⟩
        · simp [pageBodyRest, hdg, htr]
        · simp [pageBodyRest, hdg, htr]
          exact h
      | true =>
        cases hit : pyIter orders with
        | error e =>
          refine ⟨?_, fun k v h => ?_⟩
          · simp [pageBodyRest, hdg, htr, hit]
          · simp [pageBodyRest, hdg, htr, hit]
            exact h
        | ok lst =>
          obtain ⟨preq, pcache⟩ := processOrders_invariants env lst st
          cases hpo : processOrders env st lst with
          | mk st' e? =>
            rw [hpo] at preq pcache
            cases e? with
            | none =>
              refine ⟨?_, fun k v h => ?_⟩
              · simp only [pageBodyRest, hdg, htr, hit, hpo, if_true]
                exact preq
              · simp only [pageBodyRest, hdg, htr, hit, hpo, if_true]
                exact pcache k v h
            | some e =>
              refine ⟨?_, fun k v h => ?_⟩
              · simp only [pageBodyRest, hdg, htr, hit, hpo, if_true]
                exact preq
              · simp only [pageBodyRest, hdg, htr, hit, hpo, if_true]
                exact pcache k v h

/-- One page iteration: the log grows by exactly the fetch of its own page
(for pages after the first), and cache bindings are preserved. -/
theorem pageBody_invariants (env : Env) (current : Nat) (ld : Option J) (st : St) :
    (pageBody env current ld st).1.listReq =
      st.listReq ++ (if current > 1 then [mkListRequest current] else []) ∧
    (∀ k v, lookupKV st.cache k = some v →
      lookupKV (pageBody env current ld st).1.cache k = some v) := by
  by_cases hgt : current > 1
  · unfold pageBody
    rw [if_pos hgt, if_pos hgt]
    obtain ⟨hreq, hcache⟩ := pageBodyRest_invariants env
      { st with listReq := st.listReq ++ [mkListRequest current] } (env.listPage current)
    exact ⟨hreq, hcache⟩
  · unfold pageBody
    rw [if_neg hgt, if_neg hgt]
    obtain ⟨hreq, hcache⟩ := pageBodyRest_invariants env st ld
    exact ⟨by rw [hreq, List.append_nil], hcache⟩

/-- Over the whole page loop: cache bindings are preserved and every
logged request is an old one or some `mkListRequest p`. -/
theorem pageLoop_invariants (env : Env) :
    ∀ (fuel current : Nat) (ld : Option J) (st : St),
      (∀ k v, lookupKV st.cache k = some v →
        lookupKV (pageLoop env fuel current ld st).cache k = some v) ∧
      (∀ r ∈ (pageLoop env fuel current ld st).listReq,
        r ∈ st.listReq ∨ ∃ p, r = mkListRequest p) := by
  intro fuel
  induction fuel with
  | zero => intro current ld st; exact ⟨fun k v h => h, fun r hr => Or.inl hr⟩
  | succ fuel ih =>
    intro current ld st
    obtain ⟨breq, bcache⟩ := pageBody_invariants env current ld st
    cases hpb : pageBody env current ld st with
    | mk st' cont =>
      rw [hpb] at breq bcache
      have hmem : ∀ r ∈ st'.listReq, r ∈ st.listReq ∨ ∃ p, r = mkListRequest p := by
        intro r hr
        rw [show (st', cont).1.listReq = st'.listReq from rfl] at breq
        rw [breq] at hr
        rcases List.mem_append.mp hr with h | h
        · exact Or.inl h
        · right
          refine ⟨current, ?_⟩
          by_cases hgt : current > 1
          · rw [if_pos hgt] at h
            simpa using h
          · rw [if_neg hgt] at h
            cases h
      cases cont with
      | none => simp only [pageLoop, hpb]; exact ⟨bcache, hmem⟩
      | some ld' =>
        simp only [pageLoop, hpb]
        obtain ⟨icache, ireq⟩ := ih (current + 1) ld' st'
        refine ⟨fun k v h => icache k v (bcache k v h), fun r hr => ?_⟩
        rcases ireq r hr with h | h
        · exact hmem r h
        · exact Or.inr h

/-- `runMainRest` preserves cache bindings and only adds `mkListRequest`
entries to the log. -/
theorem runMainRest_invariants (env : Env) (st1 : St) (ld : Option J) :
    (∀ k v, lookupKV st1.cache k = some v →
      lookupKV (finalSt (runMainRest env st1 ld)).cache k = some v) ∧
    (∀ r ∈ (finalSt (runMainRest env st1 ld)).listReq,
      r ∈ st1.listReq ∨ ∃ p, r = mkListRequest p) := by
  cases ld with
  | none => exact ⟨fun k v h => h, fun r hr => Or.inl hr⟩
  | some d =>
    simp only [runMainRest]
    cases htr : truthy d with
    | false => exact ⟨fun k v h => h, fun r hr => Or.inl hr⟩
    | true =>
      cases hin : pyIn (J.str "orderDetailsList") d with
      | error e => exact ⟨fun k v h => h, fun r hr => Or.inl hr⟩
      | ok found =>
        cases found with
        | false => exact ⟨fun k v h => h, fun r hr => Or.inl hr⟩
        | true =>
          cases hdg : pyDictGet d "totalResults" (J.num 0) with
          | error e => exact ⟨fun k v h => h, fun r hr => Or.inl hr⟩
          | ok trV =>
            cases trV with
            | num r =>
              obtain ⟨lcache, lreq⟩ :=
                pageLoop_invariants env ((r + 24).fdiv 25).toNat 1 (some d) st1
              exact ⟨fun k v h => lcache k v h, fun r' hr' => lreq r' hr'⟩
            | bool b =>
              obtain ⟨lcache, lreq⟩ :=
                pageLoop_invariants env
                  (((if b then (1 : Int) else 0) + 24).fdiv 25).toNat 1 (some d) st1
              exact ⟨fun k v h => lcache k v h, fun r' hr' => lreq r' hr'⟩
            | null => exact ⟨fun k v h => h, fun r hr => Or.inl hr⟩
            | str s => exact ⟨fun k v h => h, fun r hr => Or.inl hr⟩
            | arr l => exact ⟨fun k v h => h, fun r hr => Or.inl hr⟩
            | obj kvs => exact ⟨fun k v h => h, fun r hr => Or.inl hr⟩

/-- Over a whole run: an initial cache binding survives untouched, and
every issued list request is some `mkListRequest p`. -/
theorem runMain_invariants (env : Env) (cache0 : List (String × J)) :
    (∀ k v, lookupKV cache0 k = some v →
      lookupKV (finalSt (runMain env cache0)).cache k = some v) ∧
    (∀ r ∈ (finalSt (runMain env cache0)).listReq, ∃ p, r = mkListRequest p) := by
  obtain ⟨hcache, hreq⟩ := runMainRest_invariants env
    { cache := cache0, allOrders := [], listReq := [mkListRequest 1], detailReq := [] }
    (env.listPage 1)
  refine ⟨fun k v h => hcache k v h, fun r hr => ?_⟩
  rcases hreq r hr with h | h
  · simp at h
    exact ⟨1, h⟩
  · exact h

/-! ## C2 — cache hits are reused verbatim, cache entries never rewritten -/

/-- C2.  If an order's cache file already exists, processing that order
issues no request at all and appends exactly the cached content, leaving
the whole state otherwise untouched; and, run-wide, a cache binding
present at the start of a run is still present unchanged at the end of
the run, whatever the server does — so a second run against an unchanged
upstream reuses every previously-cached record verbatim. -/
theorem c2_cache_hit_idempotence (env : Env) (st : St)
    (kvs : List (String × J)) (cached : J)
    (h : lookupKV st.cache
        (pyStr ((lookupKV kvs "orderNumber").getD (J.str "")) ++ ".json")
      = some cached) :
    processOrder env st (J.obj kvs) =
      ({ st with allOrders := st.allOrders ++ [cached] }, none) ∧
    ∀ (env' : Env) (cache0 : List (String × J)) (k : String) (v : J),
      lookupKV cache0 k = some v →
      lookupKV (finalSt (runMain env' cache0)).cache k = some v := by
  constructor
  · simp only [processOrder, h]
  · intro env' cache0 k v hk
    exact (runMain_invariants env' cache0).1 k v hk

/-- Witness for `c2_cache_hit_idempotence` at a concrete cached order. -/
theorem c2_cache_hit_idempotence_witness :
    lookupKV [("A.json", J.str "cachedA")]
        (pyStr ((lookupKV [("orderNumber", J.str "A")] "orderNumber").getD (J.str ""))
          ++ ".json")
      = some (J.str "cachedA") ∧
    processOrder envOne
        { cache := [("A.json", J.str "cachedA")], allOrders := [],
          listReq := [], detailReq := [] } ordA =
      ({ cache := [("A.json", J.str "cachedA")], allOrders := [J.str "cachedA"],
          listReq := [], detailReq := [] }, none) ∧
    lookupKV [("A.json", J.str "cachedA")] "A.json" = some (J.str "cachedA") ∧
    lookupKV (finalSt (runMain envOne [("A.json", J.str "cachedA")])).cache "A.json"
      = some (J.str "cachedA") := by
  have hmain := c2_cache_hit_idempotence envOne
    { cache := [("A.json", J.str "cachedA")], allOrders := [],
      listReq := [], detailReq := [] }
    [("orderNumber", J.str "A")] (J.str "cachedA") (by with_unfolding_all rfl)
  refine ⟨by with_unfolding_all rfl, ?_, rfl, ?_⟩
  · exact hmain.1
  · exact hmain.2 envOne [("A.json", J.str "cachedA")] "A.json" (J.str "cachedA") rfl

/-! ## C5 — the categories and sort criteria of the list requests -/

/-- A list request aimed at the in-store search endpoint with the fixed
payload shape of `fetch_order_page`: empty `sortBy`, page size 25. -/
def isInstoreListRequest (r : ListRequest) : Bool :=
  r.url == searchOrderUrl && r.referer == instoreReferer &&
    r.payload.criteria.sortBy == "" && r.payload.criteria.pageSize == 25

/-- C5, counterexample.  The claim says every run iterates both an
in-store and an online category, the former sorting by store criteria and
the latter by order date ascending.  A complete concrete run issues
exactly one list request: the in-store search with an empty `sortBy` —
there is no per-category sort and no online request at all. -/
theorem c5_categories_counterexample :
    (finalSt (runMain envOne [])).listReq = [mkListRequest 1] ∧
    (mkListRequest 1).payload.criteria.sortBy = "" ∧
    (mkListRequest 1).url = searchOrderUrl ∧
    (mkListRequest 1).referer = instoreReferer :=
  ⟨by with_unfolding_all rfl, rfl, rfl, rfl⟩

/-- C5, amended.  Every list request any run issues — whatever the server
returns and whatever the cache holds — goes to the single in-store search
endpoint (with the in-store referer) and carries the fixed payload with
`sortBy = ""` and `pageSize = 25`; no online-category request and no
order-date or store sort criterion exists. -/
theorem c5_single_instore_category (env : Env) (cache0 : List (String × J)) :
    ((finalSt (runMain env cache0)).listReq).all isInstoreListRequest = true := by
  rw [List.all_eq_true]
  intro r hr
  obtain ⟨p, hp⟩ := (runMain_invariants env cache0).2 r hr
  rw [hp]
  rfl

/-! ## C8 — input shapes accepted by the tabular exporter -/

/-- C8, counterexample.  The claim says the exporter extracts the order
list from a bare list of orders as well as from wrapped objects, failing
on none of the three shapes.  A bare (truthy, so not skipped) list makes
`data.get('orderDetailsList', [])` raise `AttributeError` — lists have no
`.get` — while the same orders wrapped in an object are processed fine. -/
theorem c8_bare_list_counterexample :
    truthy (J.arr [J.obj []]) = true ∧
    fileRows (J.arr [J.obj []]) = .error .attributeError ∧
    fileRows (J.obj [("orders", J.arr [J.obj []])]) =
      .ok [fallbackRow (orderCtx [])] := by
  refine ⟨rfl, rfl, ?_⟩
  with_unfolding_all rfl

/-- C8, amended.  For an object input the exporter extracts the order
list from `orderDetailsList`, falling back to `orders` when the former is
absent or falsy, and produces the same rows for the same order list under
either key; a bare list of orders is not supported — it raises
`AttributeError`. -/
theorem c8_wrapped_shapes_equal (L : List J) :
    extractOrders (J.obj [("orderDetailsList", J.arr L)]) = .ok (J.arr L) ∧
    extractOrders (J.obj [("orders", J.arr L)]) = .ok (J.arr L) ∧
    fileRows (J.obj [("orderDetailsList", J.arr L)]) =
      fileRows (J.obj [("orders", J.arr L)]) := by
  have h1 : extractOrders (J.obj [("orderDetailsList", J.arr L)]) = .ok (J.arr L) := by
    cases L with
    | nil => with_unfolding_all rfl
    | cons x xs => with_unfolding_all rfl
  have h2 : extractOrders (J.obj [("orders", J.arr L)]) = .ok (J.arr L) := by
    cases L with
    | nil => with_unfolding_all rfl
    | cons x xs => with_unfolding_all rfl
  refine ⟨h1, h2, ?_⟩
  simp only [fileRows, h1, h2]

/-! ## Safe orders: processing cannot raise and appends exactly one record -/

/-- An order whose processing can neither raise nor trigger a detail
fetch: a dict whose order number is (or defaults to) a string that does
not start with `POS.`. -/
def SafeOrder (o : J) : Bool :=
  match o with
  | .obj kvs =>
    match (lookupKV kvs "orderNumber").getD (J.str "") with
    | .str s => !s.startsWith "POS."
    | _ => false
  | _ => false

/-- Processing a safe order succeeds and appends exactly one record
(cache hit or miss alike). -/
theorem processOrder_safe (env : Env) (st : St) (o : J)
    (h : SafeOrder o = true) :
    (processOrder env st o).2 = none ∧
    (processOrder env st o).1.allOrders.length = st.allOrders.length + 1 := by
  cases o with
  | obj kvs =>
    cases hnum : (lookupKV kvs "orderNumber").getD (J.str "") with
    | str s =>
      have hsw : s.startsWith "POS." = false := by
        simp only [SafeOrder, hnum] at h
        simpa using h
      cases hcache : lookupKV st.cache
          (pyStr ((lookupKV kvs "orderNumber").getD (J.str "")) ++ ".json") with
      | some cached =>
        refine ⟨?_, ?_⟩ <;> simp [processOrder, hcache]
      | none =>
        have hpsw : pyStartsWith ((lookupKV kvs "orderNumber").getD (J.str "")) "POS."
            = .ok false := by
          rw [hnum]
          simp [pyStartsWith, hsw]
        refine ⟨?_, ?_⟩ <;> simp [processOrder, hcache, hpsw, finishOrder]
    | null => simp only [SafeOrder, hnum] at h; cases h
    | bool b => simp only [SafeOrder, hnum] at h; cases h
    | num n => simp only [SafeOrder, hnum] at h; cases h
    | arr l => simp only [SafeOrder, hnum] at h; cases h
    | obj kvs2 => simp only [SafeOrder, hnum] at h; cases h
  | null => simp [SafeOrder] at h
  | bool b => simp [SafeOrder] at h
  | num n => simp [SafeOrder] at h
  | str s => simp [SafeOrder] at h
  | arr l => simp [SafeOrder] at h

/-- A page of safe orders is processed to completion, appending exactly
one record per order. -/
theorem processOrders_safe (env : Env) :
    ∀ (l : List J) (st : St), (∀ o ∈ l, SafeOrder o = true) →
      (processOrders env st l).2 = none ∧
      (processOrders env st l).1.allOrders.length = st.allOrders.length + l.length := by
  intro l
  induction l with
  | nil => intro st _; exact ⟨rfl, by simp [processOrders]⟩
  | cons o rest ih =>
    intro st h
    obtain ⟨h2, h1⟩ := processOrder_safe env st o (h o (by simp))
    cases hpo : processOrder env st o with
    | mk st' e? =>
      rw [hpo] at h1 h2
      cases e? with
      | none =>
        obtain ⟨ih2, ih1⟩ := ih st' (fun x hx => h x (by simp [hx]))
        simp only [processOrders, hpo]
        refine ⟨ih2, ?_⟩
        rw [ih1]
        have h1x : st'.allOrders.length = st.allOrders.length + 1 := h1
        simp only [List.length_cons]
        omega
      | some e => cases h2

/-! ## C6 — a failed or empty list page halts pagination, keeping prior records -/

/-- C6.  When the first page is well-formed (with `totalResults = R` large
enough that more pages are due) but the page-2 list request either fails
(non-200 → `None`, whose `.get` raises and is caught) or returns a body
whose order list is missing or empty, the run still finishes: it stops
requesting after page 2, and the output artifact holds exactly the
records accumulated from page 1. -/
theorem c6_fatal_list_failure (env : Env) (cache0 : List (String × J))
    (R : Nat) (page1 : List J)
    (hd1 : env.listPage 1 =
      some (J.obj [("totalResults", J.num (R : Int)),
                   ("orderDetailsList", J.arr page1)]))
    (hne : page1 ≠ [])
    (hsafe : ∀ o ∈ page1, SafeOrder o = true)
    (hR : 26 ≤ R)
    (h2 : env.listPage 2 = none ∨
      ∃ d2 v, env.listPage 2 = some d2 ∧
        pyDictGet d2 "orderDetailsList" (J.arr []) = .ok v ∧ truthy v = false) :
    ∃ stF, runMain env cache0 = .finished OUTPUT_FILE stF.allOrders stF ∧
      stF.allOrders = (processOrders env
        { cache := cache0, allOrders := [], listReq := [mkListRequest 1],
          detailReq := [] } page1).1.allOrders ∧
      stF.allOrders.length = page1.length ∧
      stF.listReq = [mkListRequest 1, mkListRequest 2] := by
  set d1 : J := J.obj [("totalResults", J.num (R : Int)),
      ("orderDetailsList", J.arr page1)] with hd1def
  set st1 : St :=
    ({ cache := cache0, allOrders := [], listReq := [mkListRequest 1],
       detailReq := [] } : St) with hst1def
  obtain ⟨hps2, hps1⟩ := processOrders_safe env page1 st1 hsafe
  obtain ⟨hplr, _⟩ := processOrders_invariants env page1 st1
  cases hpo : processOrders env st1 page1 with
  | mk st2 e? =>
    rw [hpo] at hps1 hps2 hplr
    cases e? with
    | some e => simp at hps2
    | none =>
      have hst2len : st2.allOrders.length = page1.length := by
        have hx : st2.allOrders.length = 0 + page1.length := hps1
        omega
      have hst2lr : st2.listReq = [mkListRequest 1] := hplr
      have hdg1 : pyDictGet d1 "orderDetailsList" (J.arr []) = .ok (J.arr page1) := by
        rw [hd1def]
        with_unfolding_all rfl
      have htr1 : truthy (J.arr page1) = true := by
        cases page1 with
        | nil => exact absurd rfl hne
        | cons x xs => rfl
      have hbody1 : pageBody env 1 (some d1) st1 = (st2, some (some d1)) := by
        simp only [pageBody]
        rw [if_neg (by omega)]
        simp [pageBodyRest, hdg1, htr1, pyIter, hpo]
      have hbody2 : pageBody env 2 (some d1) st2 =
          ({ st2 with listReq := st2.listReq ++ [mkListRequest 2] }, none) := by
        simp only [pageBody]
        rw [if_pos (by omega)]
        rcases h2 with hnone | ⟨d2, v, he2, hdg2, htr2⟩
        · rw [hnone]
          simp [pageBodyRest]
        · rw [he2]
          simp [pageBodyRest, hdg2, htr2]
      have hfdiv : (((R : Int) + 24).fdiv 25).toNat = (R + 24) / 25 := by
        have hcast : ((R : Int) + 24) = Int.ofNat (R + 24) := by
          rw [Int.ofNat_eq_natCast]
          push_cast
          ring
        rw [hcast]
        rfl
      obtain ⟨t, ht⟩ : ∃ t, (R + 24) / 25 = t + 2 := by
        refine ⟨(R + 24) / 25 - 2, ?_⟩
        have h50 : 2 * 25 ≤ R + 24 := by omega
        have hdiv := (Nat.le_div_iff_mul_le (by omega : 0 < 25)).mpr h50
        omega
      have hloop : pageLoop env ((((R : Int) + 24).fdiv 25).toNat) 1 (some d1) st1 =
          { st2 with listReq := st2.listReq ++ [mkListRequest 2] } := by
        rw [hfdiv, ht]
        show pageLoop env (t + 1 + 1) 1 (some d1) st1 = _
        simp only [pageLoop, hbody1, hbody2]
      have htd1 : truthy d1 = true := by rw [hd1def]; rfl
      have hin1 : pyIn (J.str "orderDetailsList") d1 = .ok true := by
        rw [hd1def]
        with_unfolding_all rfl
      have hgt1 : pyDictGet d1 "totalResults" (J.num 0) = .ok (J.num (R : Int)) := by
        rw [hd1def]
        with_unfolding_all rfl
      have hrun : runMain env cache0 =
          .finished OUTPUT_FILE
            ({ st2 with listReq := st2.listReq ++ [mkListRequest 2] }).allOrders
            { st2 with listReq := st2.listReq ++ [mkListRequest 2] } := by
        simp only [runMain]
        rw [hd1]
        rw [← hst1def]
        simp [runMainRest, htd1, hin1, hgt1]
        rw [hloop]
        exact ⟨rfl, rfl⟩
      refine ⟨_, hrun, ?_, ?_, ?_⟩
      · rfl
      · simpa using hst2len
      · simp [hst2lr]

/-- Server for the C6 witness: a well-formed first page claiming 26 total
results, and a failing page-2 request. -/
def envC6 : Env :=
  { listPage := fun p =>
      if p = 1 then
        some (J.obj [("totalResults", J.num ((26 : Nat) : Int)),
                     ("orderDetailsList", J.arr [ordA])])
      else none
    posDetail := fun _ => none }

/-- Witness for `c6_fatal_list_failure` at a concrete run. -/
theorem c6_fatal_list_failure_witness :
    envC6.listPage 1 =
      some (J.obj [("totalResults", J.num ((26 : Nat) : Int)),
                   ("orderDetailsList", J.arr [ordA])]) ∧
    ([ordA] : List J) ≠ [] ∧
    (∀ o ∈ [ordA], SafeOrder o = true) ∧
    26 ≤ 26 ∧
    envC6.listPage 2 = none ∧
    (∃ stF, runMain envC6 [] = .finished OUTPUT_FILE stF.allOrders stF ∧
      stF.allOrders = (processOrders envC6
        { cache := [], allOrders := [], listReq := [mkListRequest 1],
          detailReq := [] } [ordA]).1.allOrders ∧
      stF.allOrders.length = ([ordA] : List J).length ∧
      stF.listReq = [mkListRequest 1, mkListRequest 2]) := by
  have hsafe : ∀ o ∈ [ordA], SafeOrder o = true := by
    intro o ho
    simp at ho
    subst ho
    with_unfolding_all rfl
  have h2 : envC6.listPage 2 = none := rfl
  refine ⟨rfl, by simp, hsafe, by omega, h2, ?_⟩
  exact c6_fatal_list_failure envC6 [] 26 [ordA] rfl (by simp) hsafe (by omega)
    (Or.inl h2)

/-! ## C9 — one row per line item, defaults for missing fields -/

/-- Does a JSON dict carry the given key? -/
def jHas (o : J) (k : String) : Bool :=
  match o with
  | .obj kvs => (lookupKV kvs k).isSome
  | _ => false

/-- The order's line-item list (empty when absent). -/
def linesOf (o : J) : List J :=
  match o with
  | .obj kvs =>
    match lookupKV kvs "orderLines" with
    | some (.arr l) => l
    | _ => []
  | _ => []

/-- A line item on which `parse_order_lines` cannot raise: a dict whose
`statuses`, when present and truthy, is a non-empty list headed by a
dict (matching the shape the source indexes into). -/
def wellFormedLine (line : J) : Bool :=
  match line with
  | .obj lkvs =>
    match lookupKV lkvs "statuses" with
    | some v =>
      if truthy v then
        match v with
        | .arr (f :: _) =>
          match f with
          | .obj _ => true
          | _ => false
        | _ => false
      else true
    | none => true
  | _ => false

/-- An order on which `parse_order_lines` cannot raise: a dict whose
`orderLines`, when present, is a list of well-formed lines. -/
def wellFormedOrder (o : J) : Bool :=
  match o with
  | .obj kvs =>
    match lookupKV kvs "orderLines" with
    | some (.arr ls) => ls.all wellFormedLine
    | some _ => false
    | none => true
  | _ => false

/-- The order-level context of an order (an order is a dict at every use
site below). -/
def ctxOf (o : J) : OrderCtx :=
  match o with
  | .obj kvs => orderCtx kvs
  | _ => orderCtx []

/-- The value `lineStatusOf` returns on a well-formed line. -/
def lineStatusPure (lkvs : List (String × J)) : J :=
  if truthy ((lookupKV lkvs "statuses").getD J.null) then
    match (lookupKV lkvs "statuses").getD (J.arr [J.obj []]) with
    | .arr (f :: _) =>
      match f with
      | .obj fkvs => (lookupKV fkvs "statusDesc").getD (J.str "")
      | _ => J.str ""
    | _ => J.str ""
  else J.str ""

/-- The row `lineRow` produces on a well-formed line. -/
def mkLineRow (ctx : OrderCtx) (line : J) : Row :=
  match line with
  | .obj lkvs =>
    [("Order Number", ctx.order_number),
     ("Order Date", ctx.order_date),
     ("Order Type", ctx.order_type),
     ("Order Channel", ctx.order_channel),
     ("Customer Number", ctx.customer_number),
     ("Order Status", ctx.status_desc),
     ("Grand Total", ctx.grand_total),
     ("Points Issued", ctx.points_issued),
     ("Points Redeemed", ctx.points_redeemed),
     ("Store Number", ctx.store_number),
     ("Store Address", ctx.store_address),
     ("Store City", ctx.store_city),
     ("Store State", ctx.store_state),
     ("Product SKU", (lookupKV lkvs "productSku").getD (J.str "")),
     ("Product Name", (lookupKV lkvs "productName").getD (J.str "")),
     ("Product Description", (lookupKV lkvs "productDesc").getD (J.str "")),
     ("Model", (lookupKV lkvs "model").getD (J.str "")),
     ("Unit Price", (lookupKV lkvs "unitPrice").getD (J.num 0)),
     ("Quantity", (lookupKV lkvs "orderQty").getD (J.num 0)),
     ("Original Quantity", (lookupKV lkvs "originalOrderedQty").getD (J.num 0)),
     ("Line Total", (lookupKV lkvs "total").getD (J.num 0)),
     ("Line Status", lineStatusPure lkvs),
     ("Product URL", (lookupKV lkvs "productURL").getD (J.str "")),
     ("Out of Stock", (lookupKV lkvs "isOutOfStock").getD (J.bool false)),
     ("BOPIS Eligible", (lookupKV lkvs "bopisEligible").getD (J.bool false)),
     ("Delivery In Stock", (lookupKV lkvs "isDeliveryInstock").getD (J.bool false))]
  | _ => []

/-- `bind` on an `Except.ok` value reduces to the continuation. -/
theorem exceptBind_ok (a : α) (f : α → Except PyErr β) :
    (Except.ok a >>= f) = f a := rfl

/-- `lineStatusOf` succeeds on a well-formed line's fields. -/
theorem lineStatusOf_wf (lkvs : List (String × J))
    (h : wellFormedLine (J.obj lkvs) = true) :
    lineStatusOf lkvs = .ok (lineStatusPure lkvs) := by
  cases htr : truthy ((lookupKV lkvs "statuses").getD J.null) with
  | false => simp [lineStatusOf, lineStatusPure, htr]
  | true =>
    cases hst : lookupKV lkvs "statuses" with
    | none => rw [hst] at htr; simp [truthy] at htr
    | some v =>
      rw [hst] at htr
      simp only [Option.getD_some] at htr
      simp only [wellFormedLine, hst, htr, if_true] at h
      cases v with
      | arr l =>
        cases l with
        | nil => simp at h
        | cons f rest =>
          cases f with
          | obj fkvs =>
            simp [lineStatusOf, lineStatusPure, hst, htr, pyIndex, pyDictGet, Except.bind]; rfl
          | null => simp at h
          | bool b => simp at h
          | num n => simp at h
          | str s => simp at h
          | arr l2 => simp at h
      | null => simp at h
      | bool b => simp at h
      | num n => simp at h
      | str s => simp at h
      | obj kvs2 => simp at h

/-- `lineRow` succeeds on a well-formed line and produces `mkLineRow`. -/
theorem lineRow_wf (ctx : OrderCtx) (line : J)
    (h : wellFormedLine line = true) :
    lineRow ctx line = .ok (mkLineRow ctx line) := by
  cases line with
  | obj lkvs =>
    have hls := lineStatusOf_wf lkvs h
    simp [lineRow, mkLineRow, hls, Except.bind]; rfl
  | null => simp [wellFormedLine] at h
  | bool b => simp [wellFormedLine] at h
  | num n => simp [wellFormedLine] at h
  | str s => simp [wellFormedLine] at h
  | arr l => simp [wellFormedLine] at h

/-- `mapExcept` over a list on which `f` never fails. -/
theorem mapExcept_ok (f : α → Except PyErr β) (g : α → β) :
    ∀ l : List α, (∀ x ∈ l, f x = .ok (g x)) →
      mapExcept f l = .ok (l.map g) := by
  intro l
  induction l with
  | nil => intro _; rfl
  | cons x rest ih =>
    intro h
    simp [mapExcept, h x (by simp), ih (fun y hy => h y (by simp [hy])), Except.bind]; rfl

/-- `parse_order_lines` on a well-formed order: one row per line item via
`mkLineRow`, or the single fallback row when there are no lines. -/
theorem parse_order_lines_wf (o : J) (h : wellFormedOrder o = true) :
    parse_order_lines o =
      .ok (if (linesOf o).isEmpty then [fallbackRow (ctxOf o)]
           else (linesOf o).map (mkLineRow (ctxOf o))) := by
  cases o with
  | obj kvs =>
    cases hol : lookupKV kvs "orderLines" with
    | none =>
      simp [parse_order_lines, linesOf, ctxOf, hol, pyIter, mapExcept, Except.bind]; rfl
    | some v =>
      cases v with
      | arr ls =>
        simp only [wellFormedOrder, hol, List.all_eq_true] at h
        have hmap : mapExcept (lineRow (orderCtx kvs)) ls =
            .ok (ls.map (mkLineRow (orderCtx kvs))) :=
          mapExcept_ok _ _ ls (fun x hx => lineRow_wf _ x (h x hx))
        cases ls with
        | nil =>
          simp [parse_order_lines, linesOf, ctxOf, hol, pyIter, mapExcept, Except.bind]; rfl
        | cons l0 lrest =>
          simp only [parse_order_lines, hol, Option.getD_some, pyIter,
            exceptBind_ok, hmap]
          simp [linesOf, hol, ctxOf]
      | null => simp [wellFormedOrder, hol] at h
      | bool b => simp [wellFormedOrder, hol] at h
      | num n => simp [wellFormedOrder, hol] at h
      | str s => simp [wellFormedOrder, hol] at h
      | obj kvs2 => simp [wellFormedOrder, hol] at h
  | null => simp [wellFormedOrder] at h
  | bool b => simp [wellFormedOrder] at h
  | num n => simp [wellFormedOrder] at h
  | str s => simp [wellFormedOrder] at h
  | arr l => simp [wellFormedOrder] at h

/-- Line-level columns holding strings, with default `''`. -/
def lineStrCols : List String :=
  ["Product SKU", "Product Name", "Product Description", "Model",
   "Line Status", "Product URL"]

/-- Line-level columns holding numbers, with default `0`. -/
def lineNumCols : List String :=
  ["Unit Price", "Quantity", "Original Quantity", "Line Total"]

/-- Line-level columns holding booleans, with default `False`. -/
def lineBoolCols : List String :=
  ["Out of Stock", "BOPIS Eligible", "Delivery In Stock"]

/-- C9.  On a well-formed order, `parse_order_lines` produces exactly one
row per line item; an order with an absent or empty line-item list
produces exactly one row whose line-level fields are `''`/`0`/`False`
while the order-level fields are filled in from the order; and every
missing numeric (boolean) field defaults to `0` (`False`) in every row,
at both the order level and the line level. -/
theorem c9_rows_per_line_item (o : J) (h : wellFormedOrder o = true) :
    ∃ rows, parse_order_lines o = .ok rows ∧
      rows.length = (if (linesOf o).isEmpty then 1 else (linesOf o).length) ∧
      ((linesOf o).isEmpty → rows = [fallbackRow (ctxOf o)]) ∧
      (¬(linesOf o).isEmpty → rows = (linesOf o).map (mkLineRow (ctxOf o))) ∧
      (∀ k ∈ lineStrCols, rowGet (fallbackRow (ctxOf o)) k = some (J.str "")) ∧
      (∀ k ∈ lineNumCols, rowGet (fallbackRow (ctxOf o)) k = some (J.num 0)) ∧
      (∀ k ∈ lineBoolCols, rowGet (fallbackRow (ctxOf o)) k = some (J.bool false)) ∧
      (∀ row ∈ rows,
        rowGet row "Order Number" = some ((ctxOf o).order_number) ∧
        rowGet row "Grand Total" = some ((ctxOf o).grand_total) ∧
        rowGet row "Points Issued" = some ((ctxOf o).points_issued) ∧
        rowGet row "Points Redeemed" = some ((ctxOf o).points_redeemed)) ∧
      (jHas o "grandTotal" = false → (ctxOf o).grand_total = J.num 0) ∧
      (jHas o "pointsIssued" = false → (ctxOf o).points_issued = J.num 0) ∧
      (jHas o "pointsRedeemed" = false → (ctxOf o).points_redeemed = J.num 0) ∧
      (∀ line ∈ linesOf o,
        (jHas line "unitPrice" = false →
          rowGet (mkLineRow (ctxOf o) line) "Unit Price" = some (J.num 0)) ∧
        (jHas line "orderQty" = false →
          rowGet (mkLineRow (ctxOf o) line) "Quantity" = some (J.num 0)) ∧
        (jHas line "originalOrderedQty" = false →
          rowGet (mkLineRow (ctxOf o) line) "Original Quantity" = some (J.num 0)) ∧
        (jHas line "total" = false →
          rowGet (mkLineRow (ctxOf o) line) "Line Total" = some (J.num 0)) ∧
        (jHas line "isOutOfStock" = false →
          rowGet (mkLineRow (ctxOf o) line) "Out of Stock" = some (J.bool false)) ∧
        (jHas line "bopisEligible" = false →
          rowGet (mkLineRow (ctxOf o) line) "BOPIS Eligible" = some (J.bool false)) ∧
        (jHas line "isDeliveryInstock" = false →
          rowGet (mkLineRow (ctxOf o) line) "Delivery In Stock" = some (J.bool false))) := by
  have hfallback_str : ∀ k ∈ lineStrCols,
      rowGet (fallbackRow (ctxOf o)) k = some (J.str "") := by
    intro k hk
    fin_cases hk <;> with_unfolding_all rfl
  have hfallback_num : ∀ k ∈ lineNumCols,
      rowGet (fallbackRow (ctxOf o)) k = some (J.num 0) := by
    intro k hk
    fin_cases hk <;> with_unfolding_all rfl
  have hfallback_bool : ∀ k ∈ lineBoolCols,
      rowGet (fallbackRow (ctxOf o)) k = some (J.bool false) := by
    intro k hk
    fin_cases hk <;> with_unfolding_all rfl
  have hline_wf : ∀ line ∈ linesOf o, wellFormedLine line = true := by
    intro line hline
    cases o with
    | obj kvs =>
      cases hol : lookupKV kvs "orderLines" with
      | none => simp [linesOf, hol] at hline
      | some v =>
        cases v with
        | arr ls =>
          simp only [wellFormedOrder, hol, List.all_eq_true] at h
          simp only [linesOf, hol] at hline
          exact h line hline
        | null => simp [wellFormedOrder, hol] at h
        | bool b => simp [wellFormedOrder, hol] at h
        | num n => simp [wellFormedOrder, hol] at h
        | str s => simp [wellFormedOrder, hol] at h
        | obj kvs2 => simp [wellFormedOrder, hol] at h
    | null => simp [linesOf] at hline
    | bool b => simp [linesOf] at hline
    | num n => simp [linesOf] at hline
    | str s => simp [linesOf] at hline
    | arr l => simp [linesOf] at hline
  have hline_obj : ∀ line ∈ linesOf o, ∃ lkvs, line = J.obj lkvs := by
    intro line hline
    have hw := hline_wf line hline
    cases line with
    | obj lkvs => exact ⟨lkvs, rfl⟩
    | null => simp [wellFormedLine] at hw
    | bool b => simp [wellFormedLine] at hw
    | num n => simp [wellFormedLine] at hw
    | str s => simp [wellFormedLine] at hw
    | arr l => simp [wellFormedLine] at hw
  have hrow_order : ∀ line ∈ linesOf o,
      rowGet (mkLineRow (ctxOf o) line) "Order Number" = some ((ctxOf o).order_number) ∧
      rowGet (mkLineRow (ctxOf o) line) "Grand Total" = some ((ctxOf o).grand_total) ∧
      rowGet (mkLineRow (ctxOf o) line) "Points Issued" = some ((ctxOf o).points_issued) ∧
      rowGet (mkLineRow (ctxOf o) line) "Points Redeemed"
        = some ((ctxOf o).points_redeemed) := by
    intro line hline
    obtain ⟨lkvs, rfl⟩ := hline_obj line hline
    refine ⟨?_, ?_, ?_, ?_⟩ <;> with_unfolding_all rfl
  refine ⟨_, parse_order_lines_wf o h, ?_, ?_, ?_,
    hfallback_str, hfallback_num, hfallback_bool, ?_, ?_, ?_, ?_, ?_⟩
  · cases hle : (linesOf o).isEmpty with
    | true => simp [hle]
    | false => simp [hle]
  · intro hle
    simp [hle]
  · intro hle
    simp [List.isEmpty_iff] at hle
    simp [List.isEmpty_iff, hle]
  · intro row hrow
    cases hle : (linesOf o).isEmpty with
    | true =>
      rw [if_pos hle] at hrow
      simp at hrow
      subst hrow
      refine ⟨?_, ?_, ?_, ?_⟩ <;> with_unfolding_all rfl
    | false =>
      rw [if_neg (by simp [hle])] at hrow
      obtain ⟨line, hline, rfl⟩ := List.mem_map.mp hrow
      exact hrow_order line hline
  · intro hmiss
    cases o with
    | obj kvs =>
      cases hgl : lookupKV kvs "grandTotal" with
      | none => simp [ctxOf, orderCtx, hgl]
      | some v => simp [jHas, hgl] at hmiss
    | null => rfl
    | bool b => rfl
    | num n => rfl
    | str s => rfl
    | arr l => rfl
  · intro hmiss
    cases o with
    | obj kvs =>
      cases hgl : lookupKV kvs "pointsIssued" with
      | none => simp [ctxOf, orderCtx, hgl]
      | some v => simp [jHas, hgl] at hmiss
    | null => rfl
    | bool b => rfl
    | num n => rfl
    | str s => rfl
    | arr l => rfl
  · intro hmiss
    cases o with
    | obj kvs =>
      cases hgl : lookupKV kvs "pointsRedeemed" with
      | none => simp [ctxOf, orderCtx, hgl]
      | some v => simp [jHas, hgl] at hmiss
    | null => rfl
    | bool b => rfl
    | num n => rfl
    | str s => rfl
    | arr l => rfl
  · intro line hline
    obtain ⟨lkvs, rfl⟩ := hline_obj line hline
    refine ⟨?_, ?_, ?_, ?_, ?_, ?_, ?_⟩
    · intro hmiss
      cases hm : lookupKV lkvs "unitPrice" with
      | none =>
        have hv : rowGet (mkLineRow (ctxOf o) (J.obj lkvs)) "Unit Price"
            = some ((lookupKV lkvs "unitPrice").getD (J.num 0)) := by
          with_unfolding_all rfl
        rw [hv, hm]
        rfl
      | some v => simp [jHas, hm] at hmiss
    · intro hmiss
      cases hm : lookupKV lkvs "orderQty" with
      | none =>
        have hv : rowGet (mkLineRow (ctxOf o) (J.obj lkvs)) "Quantity"
            = some ((lookupKV lkvs "orderQty").getD (J.num 0)) := by
          with_unfolding_all rfl
        rw [hv, hm]
        rfl
      | some v => simp [jHas, hm] at hmiss
    · intro hmiss
      cases hm : lookupKV lkvs "originalOrderedQty" with
      | none =>
        have hv : rowGet (mkLineRow (ctxOf o) (J.obj lkvs)) "Original Quantity"
            = some ((lookupKV lkvs "originalOrderedQty").getD (J.num 0)) := by
          with_unfolding_all rfl
        rw [hv, hm]
        rfl
      | some v => simp [jHas, hm] at hmiss
    · intro hmiss
      cases hm : lookupKV lkvs "total" with
      | none =>
        have hv : rowGet (mkLineRow (ctxOf o) (J.obj lkvs)) "Line Total"
            = some ((lookupKV lkvs "total").getD (J.num 0)) := by
          with_unfolding_all rfl
        rw [hv, hm]
        rfl
      | some v => simp [jHas, hm] at hmiss
    · intro hmiss
      cases hm : lookupKV lkvs "isOutOfStock" with
      | none =>
        have hv : rowGet (mkLineRow (ctxOf o) (J.obj lkvs)) "Out of Stock"
            = some ((lookupKV lkvs "isOutOfStock").getD (J.bool false)) := by
          with_unfolding_all rfl
        rw [hv, hm]
        rfl
      | some v => simp [jHas, hm] at hmiss
    · intro hmiss
      cases hm : lookupKV lkvs "bopisEligible" with
      | none =>
        have hv : rowGet (mkLineRow (ctxOf o) (J.obj lkvs)) "BOPIS Eligible"
            = some ((lookupKV lkvs "bopisEligible").getD (J.bool false)) := by
          with_unfolding_all rfl
        rw [hv, hm]
        rfl
      | some v => simp [jHas, hm] at hmiss
    · intro hmiss
      cases hm : lookupKV lkvs "isDeliveryInstock" with
      | none =>
        have hv : rowGet (mkLineRow (ctxOf o) (J.obj lkvs)) "Delivery In Stock"
            = some ((lookupKV lkvs "isDeliveryInstock").getD (J.bool false)) := by
          with_unfolding_all rfl
        rw [hv, hm]
        rfl
      | some v => simp [jHas, hm] at hmiss

/-- A concrete well-formed order with two line items (one carrying a
status, one empty). -/
def ordC9 : J :=
  J.obj [("orderNumber", J.str "A"),
         ("orderLines", J.arr
           [J.obj [("productSku", J.str "S1"),
                   ("statuses", J.arr [J.obj [("statusDesc", J.str "OK")]])],
            J.obj []])]

/-- Witness for `c9_rows_per_line_item` at `ordC9`. -/
theorem c9_rows_per_line_item_witness :
    wellFormedOrder ordC9 = true ∧
    (∃ rows, parse_order_lines ordC9 = .ok rows ∧
      rows.length = (if (linesOf ordC9).isEmpty then 1 else (linesOf ordC9).length) ∧
      ((linesOf ordC9).isEmpty → rows = [fallbackRow (ctxOf ordC9)]) ∧
      (¬(linesOf ordC9).isEmpty → rows = (linesOf ordC9).map (mkLineRow (ctxOf ordC9))) ∧
      (∀ k ∈ lineStrCols, rowGet (fallbackRow (ctxOf ordC9)) k = some (J.str "")) ∧
      (∀ k ∈ lineNumCols, rowGet (fallbackRow (ctxOf ordC9)) k = some (J.num 0)) ∧
      (∀ k ∈ lineBoolCols, rowGet (fallbackRow (ctxOf ordC9)) k = some (J.bool false)) ∧
      (∀ row ∈ rows,
        rowGet row "Order Number" = some ((ctxOf ordC9).order_number) ∧
        rowGet row "Grand Total" = some ((ctxOf ordC9).grand_total) ∧
        rowGet row "Points Issued" = some ((ctxOf ordC9).points_issued) ∧
        rowGet row "Points Redeemed" = some ((ctxOf ordC9).points_redeemed)) ∧
      (jHas ordC9 "grandTotal" = false → (ctxOf ordC9).grand_total = J.num 0) ∧
      (jHas ordC9 "pointsIssued" = false → (ctxOf ordC9).points_issued = J.num 0) ∧
      (jHas ordC9 "pointsRedeemed" = false → (ctxOf ordC9).points_redeemed = J.num 0) ∧
      (∀ line ∈ linesOf ordC9,
        (jHas line "unitPrice" = false →
          rowGet (mkLineRow (ctxOf ordC9) line) "Unit Price" = some (J.num 0)) ∧
        (jHas line "orderQty" = false →
          rowGet (mkLineRow (ctxOf ordC9) line) "Quantity" = some (J.num 0)) ∧
        (jHas line "originalOrderedQty" = false →
          rowGet (mkLineRow (ctxOf ordC9) line) "Original Quantity" = some (J.num 0)) ∧
        (jHas line "total" = false →
          rowGet (mkLineRow (ctxOf ordC9) line) "Line Total" = some (J.num 0)) ∧
        (jHas line "isOutOfStock" = false →
          rowGet (mkLineRow (ctxOf ordC9) line) "Out of Stock" = some (J.bool false)) ∧
        (jHas line "bopisEligible" = false →
          rowGet (mkLineRow (ctxOf ordC9) line) "BOPIS Eligible" = some (J.bool false)) ∧
        (jHas line "isDeliveryInstock" = false →
          rowGet (mkLineRow (ctxOf ordC9) line) "Delivery In Stock"
            = some (J.bool false)))) :=
  ⟨by with_unfolding_all rfl,
   c9_rows_per_line_item ordC9 (by with_unfolding_all rfl)⟩

/-! ## C1 — pagination completeness -/

/-- The slice of the full record list a consistent server returns on
page `p` (page size 25). -/
def chunk25 (records : List J) (p : Nat) : List J :=
  (records.drop (25 * (p - 1))).take 25

/-- The list body a consistent paginated server returns for page `p`:
`totalResults` is the total record count, `orderDetailsList` the page's
slice. -/
def pagedBody (records : List J) (p : Nat) : J :=
  J.obj [("totalResults", J.num (records.length : Int)),
         ("orderDetailsList", J.arr (chunk25 records p))]

/-- A consistent paginated upstream over a fixed record list; every page
request succeeds.  (The detail endpoint is irrelevant for safe orders.) -/
def envPaged (records : List J) : Env :=
  { listPage := fun p => some (pagedBody records p)
    posDetail := fun _ => none }

/-- Splitting off one page of 25 from the remaining records. -/
theorem chunk_split (records : List J) (c : Nat) (hc : 1 ≤ c) :
    (chunk25 records c).length + (records.drop (25 * c)).length
      = (records.drop (25 * (c - 1))).length := by
  simp only [chunk25, List.length_take, List.length_drop]
  omega

/-- Peeling the first page number off a range of requests. -/
theorem mkReq_range (c n : Nat) :
    (List.range (n + 1)).map (fun i => mkListRequest (c + i)) =
      mkListRequest c :: (List.range n).map (fun i => mkListRequest (c + 1 + i)) := by
  rw [List.range_succ_eq_map]
  simp only [List.map_cons, List.map_map, Nat.add_zero]
  congr 1
  apply List.map_congr_left
  intro i _
  simp only [Function.comp]
  congr 1
  omega

/-- The loop over pages `c .. totalPages` of a consistent paginated
server with safe orders: it fetches exactly those pages and accumulates
exactly the remaining records. -/
theorem c1_loop (records : List J) (hsafe : ∀ o ∈ records, SafeOrder o = true) :
    ∀ (fuel c : Nat) (ld : Option J) (st : St),
      2 ≤ c → c + fuel = (records.length + 24) / 25 + 1 →
      (pageLoop (envPaged records) fuel c ld st).listReq
          = st.listReq ++ (List.range fuel).map (fun i => mkListRequest (c + i)) ∧
      (pageLoop (envPaged records) fuel c ld st).allOrders.length
          = st.allOrders.length + (records.drop (25 * (c - 1))).length := by
  intro fuel
  induction fuel with
  | zero =>
    intro c ld st hc hsum
    have hdm := Nat.div_add_mod (records.length + 24) 25
    have hmlt : (records.length + 24) % 25 < 25 := Nat.mod_lt _ (by omega)
    have hlen : (records.drop (25 * (c - 1))).length = 0 := by
      rw [List.length_drop]
      omega
    constructor
    · simp [pageLoop]
    · simp only [pageLoop]
      rw [hlen]
      omega
  | succ fuel ih =>
    intro c ld st hc hsum
    have hdm := Nat.div_add_mod (records.length + 24) 25
    have hmlt : (records.length + 24) % 25 < 25 := Nat.mod_lt _ (by omega)
    have hlt : 25 * (c - 1) < records.length := by omega
    have hchunkpos : 0 < (chunk25 records c).length := by
      simp only [chunk25, List.length_take, List.length_drop]
      omega
    have hchunkne : chunk25 records c ≠ [] := List.length_pos.mp hchunkpos
    have htrchunk : truthy (J.arr (chunk25 records c)) = true := by
      cases hch : chunk25 records c with
      | nil => exact absurd hch hchunkne
      | cons a l => rfl
    have hsafe_chunk : ∀ o ∈ chunk25 records c, SafeOrder o = true := by
      intro o ho
      exact hsafe o (List.mem_of_mem_drop (List.mem_of_mem_take ho))
    obtain ⟨hps2, hps1⟩ := processOrders_safe (envPaged records) (chunk25 records c)
      { st with listReq := st.listReq ++ [mkListRequest c] } hsafe_chunk
    obtain ⟨hplr, _⟩ := processOrders_invariants (envPaged records) (chunk25 records c)
      { st with listReq := st.listReq ++ [mkListRequest c] }
    cases hpo : processOrders (envPaged records)
        { st with listReq := st.listReq ++ [mkListRequest c] } (chunk25 records c) with
    | mk st2 e? =>
      rw [hpo] at hps1 hps2 hplr
      cases e? with
      | some e => simp at hps2
      | none =>
        have hdg : pyDictGet (pagedBody records c) "orderDetailsList" (J.arr [])
            = .ok (J.arr (chunk25 records c)) := by
          with_unfolding_all rfl
        have henv : (envPaged records).listPage c = some (pagedBody records c) := rfl
        have hbody : pageBody (envPaged records) c ld st
            = (st2, some (some (pagedBody records c))) := by
          simp only [pageBody]
          rw [if_pos (by omega)]
          simp [pageBodyRest, henv, hdg, htrchunk, pyIter, hpo]
        have hstep : pageLoop (envPaged records) (fuel + 1) c ld st
            = pageLoop (envPaged records) fuel (c + 1)
                (some (pagedBody records c)) st2 := by
          simp only [pageLoop, hbody]
        obtain ⟨ihl, iha⟩ := ih (c + 1) (some (pagedBody records c)) st2
          (by omega) (by omega)
        have hplr' : st2.listReq = st.listReq ++ [mkListRequest c] := hplr
        have hps1' : st2.allOrders.length
            = st.allOrders.length + (chunk25 records c).length := hps1
        rw [hstep]
        constructor
        · rw [ihl, hplr', mkReq_range c fuel]
          simp
        · rw [iha, hps1']
          have hsplit := chunk_split records c (by omega)
          simp only [Nat.add_sub_cancel] at *
          omega

/-- Nat/Int bridge for the page-count computation `(R + 24) // 25`. -/
theorem toNat_fdiv25 (R : Nat) : (((R : Int) + 24).fdiv 25).toNat = (R + 24) / 25 := by
  have hcast : ((R : Int) + 24) = Int.ofNat (R + 24) := by
    rw [Int.ofNat_eq_natCast]
    push_cast
    ring
  rw [hcast]
  rfl

/-- C1.  Against a consistent paginated upstream holding `R ≥ 1` safe
records, a run computes `(R + 24) // 25` total pages — which is exactly
`ceil(R / 25)` — issues exactly the list requests for pages `1` through
that count, and accumulates exactly `R` records in the output. -/
theorem c1_pagination_completeness (records : List J) (cache0 : List (String × J))
    (hsafe : ∀ o ∈ records, SafeOrder o = true)
    (hpos : 0 < records.length) :
    ∃ stF, runMain (envPaged records) cache0 = .finished OUTPUT_FILE stF.allOrders stF ∧
      stF.listReq = (List.range ((records.length + 24) / 25)).map
        (fun i => mkListRequest (1 + i)) ∧
      stF.listReq.length = (records.length + 24) / 25 ∧
      stF.allOrders.length = records.length ∧
      records.length ≤ 25 * ((records.length + 24) / 25) ∧
      25 * ((records.length + 24) / 25) < records.length + 25 := by
  have hdm := Nat.div_add_mod (records.length + 24) 25
  have hmlt : (records.length + 24) % 25 < 25 := Nat.mod_lt _ (by omega)
  set st1 : St :=
    ({ cache := cache0, allOrders := [], listReq := [mkListRequest 1],
       detailReq := [] } : St) with hst1def
  have hchunk1 : chunk25 records 1 ≠ [] := by
    have hp : 0 < (chunk25 records 1).length := by
      simp only [chunk25, List.length_take, List.length_drop]
      omega
    exact List.length_pos.mp hp
  have htr1 : truthy (J.arr (chunk25 records 1)) = true := by
    cases hch : chunk25 records 1 with
    | nil => exact absurd hch hchunk1
    | cons a l => rfl
  have hsafe1 : ∀ o ∈ chunk25 records 1, SafeOrder o = true := fun o ho =>
    hsafe o (List.mem_of_mem_drop (List.mem_of_mem_take ho))
  obtain ⟨hps2, hps1⟩ := processOrders_safe (envPaged records) (chunk25 records 1) st1 hsafe1
  obtain ⟨hplr, _⟩ := processOrders_invariants (envPaged records) (chunk25 records 1) st1
  cases hpo : processOrders (envPaged records) st1 (chunk25 records 1) with
  | mk st2 e? =>
    rw [hpo] at hps1 hps2 hplr
    cases e? with
    | some e => simp at hps2
    | none =>
      have hdg1 : pyDictGet (pagedBody records 1) "orderDetailsList" (J.arr [])
          = .ok (J.arr (chunk25 records 1)) := by
        with_unfolding_all rfl
      have hbody1 : pageBody (envPaged records) 1 (some (pagedBody records 1)) st1
          = (st2, some (some (pagedBody records 1))) := by
        simp only [pageBody]
        rw [if_neg (by omega)]
        simp [pageBodyRest, hdg1, htr1, pyIter, hpo]
      obtain ⟨t, ht⟩ : ∃ t, (records.length + 24) / 25 = t + 1 :=
        ⟨(records.length + 24) / 25 - 1, by omega⟩
      obtain ⟨lloop, aloop⟩ :=
        c1_loop records hsafe t 2 (some (pagedBody records 1)) st2 (by omega) (by omega)
      have hloop : pageLoop (envPaged records) ((records.length + 24) / 25) 1
            (some (pagedBody records 1)) st1
          = pageLoop (envPaged records) t 2 (some (pagedBody records 1)) st2 := by
        rw [ht]
        simp only [pageLoop, hbody1]
      have htd : truthy (pagedBody records 1) = true := rfl
      have hin : pyIn (J.str "orderDetailsList") (pagedBody records 1) = .ok true := by
        with_unfolding_all rfl
      have hgt : pyDictGet (pagedBody records 1) "totalResults" (J.num 0)
          = .ok (J.num (records.length : Int)) := by
        with_unfolding_all rfl
      have henv1 : (envPaged records).listPage 1 = some (pagedBody records 1) := rfl
      have hplr' : st2.listReq = [mkListRequest 1] := hplr
      have hps1' : st2.allOrders.length = 0 + (chunk25 records 1).length := hps1
      have hrun : runMain (envPaged records) cache0 =
          .finished OUTPUT_FILE
            (pageLoop (envPaged records) t 2 (some (pagedBody records 1)) st2).allOrders
            (pageLoop (envPaged records) t 2 (some (pagedBody records 1)) st2) := by
        simp only [runMain]
        rw [henv1, ← hst1def]
        simp [runMainRest, htd, hin, hgt, toNat_fdiv25, hloop]
      refine ⟨_, hrun, ?_, ?_, ?_, by omega, by omega⟩
      · rw [lloop, hplr', ht, mkReq_range 1 t]
        with_unfolding_all rfl
      · rw [lloop, hplr']
        simp only [List.length_append, List.length_map, List.length_range,
          List.length_cons, List.length_nil]
        omega
      · rw [aloop, hps1']
        have h21 : (25 : Nat) * (2 - 1) = 25 * 1 := by norm_num
        rw [h21]
        have hsplit := chunk_split records 1 (by omega)
        simp only [Nat.sub_self, Nat.mul_zero, List.drop_zero] at hsplit
        omega

/-- Witness for `c1_pagination_completeness` at a one-record upstream. -/
theorem c1_pagination_completeness_witness :
    (∀ o ∈ [ordA], SafeOrder o = true) ∧
    0 < ([ordA] : List J).length ∧
    (∃ stF, runMain (envPaged [ordA]) [] = .finished OUTPUT_FILE stF.allOrders stF ∧
      stF.listReq = (List.range ((([ordA] : List J).length + 24) / 25)).map
        (fun i => mkListRequest (1 + i)) ∧
      stF.listReq.length = (([ordA] : List J).length + 24) / 25 ∧
      stF.allOrders.length = ([ordA] : List J).length ∧
      ([ordA] : List J).length ≤ 25 * ((([ordA] : List J).length + 24) / 25) ∧
      25 * ((([ordA] : List J).length + 24) / 25) < ([ordA] : List J).length + 25) := by
  have hsafe : ∀ o ∈ [ordA], SafeOrder o = true := by
    intro o ho
    simp at ho
    subst ho
    with_unfolding_all rfl
  exact ⟨hsafe, by simp, c1_pagination_completeness [ordA] [] hsafe (by simp)⟩
